import Mathlib

/-!
Verification of the grestclient HTTP client wrapper.

The Go sources (implementation.go, client.go) are shallowly embedded below.
Go maps with string keys and []string values (http.Header, url.Values) are
modelled as association lists with unique keys; Go's in-place mutation of
maps, URLs and slice backing arrays is modelled with an explicit heap of
numbered cells; fallible operations return Option/Except values; and the
dispatcher `do` is embedded as a state-passing function that additionally
emits a trace of the observable steps it performs (mutator runs, the
transport call, entering the decode block, running the unmarshaler).
-/

namespace Grest

/-! ## Go map values (http.Header / url.Values) -/

/-- A Go `map[string][]string` value (`http.Header` or `url.Values`),
represented as an association list with (in well-formed Go maps) unique keys. -/
abbrev HMap := List (String × List String)

/-- `url.Values` has the same underlying shape as `http.Header`. -/
abbrev QMap := List (String × List String)

/-- Go's built-in map assignment `m[k] = v`: replace the binding for `k` if
present, otherwise append a new binding. -/
def mapAssign (m : HMap) (k : String) (v : List String) : HMap :=
  match m with
  | [] => [(k, v)]
  | (k', v') :: rest => if k' = k then (k, v) :: rest else (k', v') :: mapAssign rest k v

/-- `setupHeaders(headers ...http.Header)` from implementation.go: start from a
fresh empty map and assign every binding of every argument, in order, so later
arguments overwrite earlier ones key-by-key. -/
def setupHeaders (headers : List HMap) : HMap :=
  headers.foldl (fun finalheaders current =>
    current.foldl (fun acc p => mapAssign acc p.1 p.2) finalheaders) []

/-- `setupQuery(queries ...url.Values)` from implementation.go: identical loop
over `url.Values` arguments. -/
def setupQuery (queries : List QMap) : QMap :=
  queries.foldl (fun finalquery current =>
    current.foldl (fun acc p => mapAssign acc p.1 p.2) finalquery) []

/-- The key set of a map value. -/
def mapKeys (m : HMap) : List String := m.map Prod.fst

/-- Go's map read `m[k]` (the `v, ok := m[k]` form): the binding for `k`,
if any. -/
def mapLookup (m : HMap) (k : String) : Option (List String) :=
  match m with
  | [] => none
  | (k', v) :: rest => if k' = k then some v else mapLookup rest k

/-! ## URLs -/

/-- `url.Userinfo`: a username with an optional password. -/
structure UserInfo where
  username : String
  password : Option String
deriving DecidableEq, Repr

/-- The fields of `net/url.URL` that this library reads and writes.
(`Opaque` is named `opq` here.) -/
structure Url where
  scheme : String
  opq : String
  user : Option UserInfo
  host : String
  path : String
  rawQuery : String
  fragment : String
deriving DecidableEq, Repr

/-- `cloneUrl` from implementation.go: rebuild the user info and copy the
scheme, opaque part, host, path, raw query and fragment into a fresh URL. -/
def cloneUrl (u : Url) : Url :=
  let userInfo : Option UserInfo :=
    match u.user with
    | none => none
    | some ui =>
      match ui.password with
      | some p => some ⟨ui.username, some p⟩
      | none => some ⟨ui.username, none⟩
  { scheme := u.scheme, opq := u.opq, user := userInfo, host := u.host,
    path := u.path, rawQuery := u.rawQuery, fragment := u.fragment }

/-! ## Basic lemmas about map assignment and the merge loops -/

theorem mapLookup_assign (m : HMap) (k k' : String) (v : List String) :
    mapLookup (mapAssign m k v) k' = if k = k' then some v else mapLookup m k' := by
  induction m with
  | nil =>
    by_cases h : k = k' <;> simp [mapAssign, mapLookup, h]
  | cons p rest ih =>
    obtain ⟨k0, v0⟩ := p
    by_cases h0 : k0 = k
    · subst h0
      by_cases h : k0 = k' <;> simp [mapAssign, mapLookup, h]
    · by_cases h1 : k0 = k'
      · subst h1
        have h2 : ¬ k = k0 := fun hh => h0 hh.symm
        simp [mapAssign, h0, mapLookup, h2]
      · simp [mapAssign, h0, mapLookup, h1, ih]

theorem mapLookup_eq_none_of_not_mem (m : HMap) (k : String) (h : k ∉ mapKeys m) :
    mapLookup m k = none := by
  induction m with
  | nil => simp [mapLookup]
  | cons p rest ih =>
    obtain ⟨k0, v0⟩ := p
    simp only [mapKeys, List.map_cons, List.mem_cons] at h
    push_neg at h
    simp [mapLookup, Ne.symm h.1, ih (by simpa [mapKeys] using h.2)]

theorem mapAssign_not_mem (m : HMap) (k : String) (v : List String)
    (h : k ∉ mapKeys m) : mapAssign m k v = m ++ [(k, v)] := by
  induction m with
  | nil => simp [mapAssign]
  | cons p rest ih =>
    obtain ⟨k0, v0⟩ := p
    simp only [mapKeys, List.map_cons, List.mem_cons] at h
    push_neg at h
    simp [mapAssign, Ne.symm h.1, ih (by simpa [mapKeys] using h.2)]

/-- Folding map assignment over entries whose keys are fresh for the
accumulator and mutually distinct just appends the entries. -/
theorem foldl_mapAssign_disjoint (m : HMap) :
    ∀ acc : HMap, (mapKeys acc ++ mapKeys m).Nodup →
      m.foldl (fun a p => mapAssign a p.1 p.2) acc = acc ++ m := by
  induction m with
  | nil => intro acc _; simp
  | cons p rest ih =>
    intro acc hnd
    obtain ⟨k0, v0⟩ := p
    have hmk : mapKeys acc ++ mapKeys ((k0, v0) :: rest)
        = mapKeys acc ++ k0 :: mapKeys rest := by simp [mapKeys]
    rw [hmk] at hnd
    rcases List.nodup_append.mp hnd with ⟨hacc, hcons, hdisj⟩
    have hk0 : k0 ∉ mapKeys acc := fun hmem => hdisj hmem (List.mem_cons_self _ _)
    have hstep : mapAssign acc k0 v0 = acc ++ [(k0, v0)] := mapAssign_not_mem acc k0 v0 hk0
    have hnd' : (mapKeys (acc ++ [(k0, v0)]) ++ mapKeys rest).Nodup := by
      have hmk2 : mapKeys (acc ++ [(k0, v0)]) ++ mapKeys rest
          = mapKeys acc ++ k0 :: mapKeys rest := by simp [mapKeys]
      rw [hmk2]; exact hnd
    calc ((k0, v0) :: rest).foldl (fun a p => mapAssign a p.1 p.2) acc
        = rest.foldl (fun a p => mapAssign a p.1 p.2) (mapAssign acc k0 v0) := by simp
      _ = rest.foldl (fun a p => mapAssign a p.1 p.2) (acc ++ [(k0, v0)]) := by rw [hstep]
      _ = (acc ++ [(k0, v0)]) ++ rest := ih _ hnd'
      _ = acc ++ ((k0, v0) :: rest) := by simp

/-- Copying a well-formed map value by iterating its entries into an empty map
reproduces the same association list. -/
theorem copy_loop_eq_self (m : HMap) (h : (mapKeys m).Nodup) :
    m.foldl (fun a p => mapAssign a p.1 p.2) [] = m := by
  have := foldl_mapAssign_disjoint m [] (by simpa [mapKeys] using h)
  simpa using this

/-- Folding a well-formed override map into a base map: the override's binding
wins for keys the override contains; other keys keep the base's binding. -/
theorem mapLookup_foldl_mapAssign (o : HMap) :
    ∀ (d : HMap) (k : String), (mapKeys o).Nodup →
      mapLookup (o.foldl (fun a p => mapAssign a p.1 p.2) d) k
        = match mapLookup o k with
          | some v => some v
          | none => mapLookup d k := by
  induction o with
  | nil => intro d k _; simp [mapLookup]
  | cons p rest ih =>
    intro d k hnd
    obtain ⟨k0, v0⟩ := p
    have hnd0 : (k0 :: mapKeys rest).Nodup := by simpa [mapKeys] using hnd
    have hk0 : k0 ∉ mapKeys rest := (List.nodup_cons.mp hnd0).1
    have hnd' : (mapKeys rest).Nodup := (List.nodup_cons.mp hnd0).2
    have hfold : ((k0, v0) :: rest).foldl (fun a p => mapAssign a p.1 p.2) d
        = rest.foldl (fun a p => mapAssign a p.1 p.2) (mapAssign d k0 v0) := by simp
    rw [hfold, ih (mapAssign d k0 v0) k hnd']
    by_cases h : k0 = k
    · subst h
      have hnone : mapLookup rest k0 = none := mapLookup_eq_none_of_not_mem rest k0 hk0
      simp [mapLookup, hnone, mapLookup_assign]
    · simp [mapLookup, h, mapLookup_assign]

/-! ## A heap of mutable Go objects

Go maps, URLs and slice backing arrays are reference types / pointed-to
objects: `make` allocates a fresh object and assignment through a reference
mutates it in place.  The heap below gives each such object a numbered cell,
so freshness ("returns a fresh map") and frame properties ("mutating the
clone never mutates the original") can be stated exactly.  Mutator values are
identified by opaque numeric ids in backing arrays. -/

structure Heap where
  urls : List Url
  hmaps : List HMap
  arrs : List (List Nat)
deriving DecidableEq, Repr

def urlDefault : Url := ⟨"", "", none, "", "", "", ""⟩

def readUrl (h : Heap) (r : Nat) : Url := (h.urls.getD r urlDefault)

def writeUrl (h : Heap) (r : Nat) (u : Url) : Heap :=
  { h with urls := h.urls.set r u }

def allocUrl (h : Heap) (u : Url) : Heap × Nat :=
  ({ h with urls := h.urls ++ [u] }, h.urls.length)

def readHMap (h : Heap) (r : Nat) : HMap := (h.hmaps.getD r [])

def writeHMap (h : Heap) (r : Nat) (m : HMap) : Heap :=
  { h with hmaps := h.hmaps.set r m }

def allocHMap (h : Heap) (m : HMap) : Heap × Nat :=
  ({ h with hmaps := h.hmaps ++ [m] }, h.hmaps.length)

def readArr (h : Heap) (r : Nat) : List Nat := (h.arrs.getD r [])

def writeArr (h : Heap) (r : Nat) (a : List Nat) : Heap :=
  { h with arrs := h.arrs.set r a }

def allocArr (h : Heap) (a : List Nat) : Heap × Nat :=
  ({ h with arrs := h.arrs ++ [a] }, h.arrs.length)

/-- Heap-level `setupHeaders`: read the argument maps through their
references, build the merged value, and `make` a fresh map holding it. -/
def setupHeadersH (h : Heap) (rs : List Nat) : Heap × Nat :=
  allocHMap h (setupHeaders (rs.map (readHMap h)))

/-- Heap-level `setupQuery`: same, through `setupQuery`. -/
def setupQueryH (h : Heap) (rs : List Nat) : Heap × Nat :=
  allocHMap h (setupQuery (rs.map (readHMap h)))

/-! ### Read/write/alloc frame lemmas -/

theorem readHMap_writeHMap_self (h : Heap) (r : Nat) (m : HMap)
    (hr : r < h.hmaps.length) : readHMap (writeHMap h r m) r = m := by
  simp [readHMap, writeHMap, List.getD, List.getElem?_set_self, hr]

theorem readHMap_writeHMap_ne (h : Heap) (r r' : Nat) (m : HMap) (hne : r' ≠ r) :
    readHMap (writeHMap h r' m) r = readHMap h r := by
  simp [readHMap, writeHMap, List.getD, List.getElem?_set_ne hne]

theorem readHMap_allocHMap (h : Heap) (m : HMap) (r : Nat) (hr : r < h.hmaps.length) :
    readHMap (allocHMap h m).1 r = readHMap h r := by
  simp [readHMap, allocHMap, List.getD, List.getElem?_append_left hr]

theorem readHMap_allocHMap_new (h : Heap) (m : HMap) :
    readHMap (allocHMap h m).1 (allocHMap h m).2 = m := by
  simp [readHMap, allocHMap, List.getD]

theorem readUrl_writeUrl_ne (h : Heap) (r r' : Nat) (u : Url) (hne : r' ≠ r) :
    readUrl (writeUrl h r' u) r = readUrl h r := by
  simp [readUrl, writeUrl, List.getD, List.getElem?_set_ne hne]

theorem readUrl_allocUrl (h : Heap) (u : Url) (r : Nat) (hr : r < h.urls.length) :
    readUrl (allocUrl h u).1 r = readUrl h r := by
  simp [readUrl, allocUrl, List.getD, List.getElem?_append_left hr]

theorem readUrl_allocUrl_new (h : Heap) (u : Url) :
    readUrl (allocUrl h u).1 (allocUrl h u).2 = u := by
  simp [readUrl, allocUrl, List.getD]

theorem readArr_writeArr_ne (h : Heap) (r r' : Nat) (a : List Nat) (hne : r' ≠ r) :
    readArr (writeArr h r' a) r = readArr h r := by
  simp [readArr, writeArr, List.getD, List.getElem?_set_ne hne]

theorem readArr_allocArr (h : Heap) (a : List Nat) (r : Nat) (hr : r < h.arrs.length) :
    readArr (allocArr h a).1 r = readArr h r := by
  simp [readArr, allocArr, List.getD, List.getElem?_append_left hr]

theorem readArr_allocArr_new (h : Heap) (a : List Nat) :
    readArr (allocArr h a).1 (allocArr h a).2 = a := by
  simp [readArr, allocArr, List.getD]

/-! ### Heap components are independent: reads of one kind are unaffected by
allocations and writes of the other kinds, and allocations of other kinds do
not move references. -/

theorem readUrl_allocHMap (h : Heap) (m : HMap) (r : Nat) :
    readUrl (allocHMap h m).1 r = readUrl h r := rfl

theorem readUrl_allocArr (h : Heap) (a : List Nat) (r : Nat) :
    readUrl (allocArr h a).1 r = readUrl h r := rfl

theorem readHMap_allocUrl (h : Heap) (u : Url) (r : Nat) :
    readHMap (allocUrl h u).1 r = readHMap h r := rfl

theorem readHMap_allocArr (h : Heap) (a : List Nat) (r : Nat) :
    readHMap (allocArr h a).1 r = readHMap h r := rfl

theorem readArr_allocUrl (h : Heap) (u : Url) (r : Nat) :
    readArr (allocUrl h u).1 r = readArr h r := rfl

theorem readArr_allocHMap (h : Heap) (m : HMap) (r : Nat) :
    readArr (allocHMap h m).1 r = readArr h r := rfl

theorem readUrl_writeHMap (h : Heap) (r' r : Nat) (m : HMap) :
    readUrl (writeHMap h r' m) r = readUrl h r := rfl

theorem readUrl_writeArr (h : Heap) (r' r : Nat) (a : List Nat) :
    readUrl (writeArr h r' a) r = readUrl h r := rfl

theorem readHMap_writeUrl (h : Heap) (r' r : Nat) (u : Url) :
    readHMap (writeUrl h r' u) r = readHMap h r := rfl

theorem readHMap_writeArr (h : Heap) (r' r : Nat) (a : List Nat) :
    readHMap (writeArr h r' a) r = readHMap h r := rfl

theorem readArr_writeUrl (h : Heap) (r' r : Nat) (u : Url) :
    readArr (writeUrl h r' u) r = readArr h r := rfl

theorem readArr_writeHMap (h : Heap) (r' r : Nat) (m : HMap) :
    readArr (writeHMap h r' m) r = readArr h r := rfl

theorem allocUrl_snd (h : Heap) (u : Url) : (allocUrl h u).2 = h.urls.length := rfl

theorem allocHMap_snd (h : Heap) (m : HMap) : (allocHMap h m).2 = h.hmaps.length := rfl

theorem allocArr_snd (h : Heap) (a : List Nat) : (allocArr h a).2 = h.arrs.length := rfl

theorem allocUrl_hmaps (h : Heap) (u : Url) : (allocUrl h u).1.hmaps = h.hmaps := rfl

theorem allocUrl_arrs (h : Heap) (u : Url) : (allocUrl h u).1.arrs = h.arrs := rfl

theorem allocHMap_urls (h : Heap) (m : HMap) : (allocHMap h m).1.urls = h.urls := rfl

theorem allocHMap_arrs (h : Heap) (m : HMap) : (allocHMap h m).1.arrs = h.arrs := rfl

theorem allocHMap_hmaps (h : Heap) (m : HMap) :
    (allocHMap h m).1.hmaps = h.hmaps ++ [m] := rfl

theorem allocArr_urls (h : Heap) (a : List Nat) : (allocArr h a).1.urls = h.urls := rfl

theorem allocArr_hmaps (h : Heap) (a : List Nat) : (allocArr h a).1.hmaps = h.hmaps := rfl

theorem allocArr_arrs (h : Heap) (a : List Nat) :
    (allocArr h a).1.arrs = h.arrs ++ [a] := rfl

/-! ## The heap-level client and `Clone` -/

/-- A Go slice value: a reference to a backing array plus a length.
(`Clone` copies with `make` + `copy`, so the copy's capacity equals its
length; capacity is not tracked because no claim depends on it.) -/
structure SliceRef where
  arr : Nat
  len : Nat
deriving DecidableEq, Repr

/-- The `client` struct of implementation.go, with reference-typed fields
(base URL, header map, query map, mutator slices, transport pointer) as heap
references.  The marshaler/unmarshaler function pointers are opaque ids. -/
structure ClientH where
  base : Nat
  reqMutators : SliceRef
  resMutators : SliceRef
  headers : Option Nat
  query : Option Nat
  tclient : Option Nat
  marshaler : Option Nat
  unmarshaler : Option Nat
deriving DecidableEq, Repr

/-- The body of `headerCopy` / `queryCopy`: `c := make(...); for i, v := range
h { c[i] = v }`. -/
def copyMapValue (m : HMap) : HMap :=
  m.foldl (fun c p => mapAssign c p.1 p.2) []

/-- `headerCopy` from implementation.go at the heap level: nil stays nil, a
non-nil map is copied into a freshly allocated map. -/
def headerCopyH (hp : Heap) (r : Option Nat) : Heap × Option Nat :=
  match r with
  | none => (hp, none)
  | some r0 =>
    let out := allocHMap hp (copyMapValue (readHMap hp r0))
    (out.1, some out.2)

/-- `queryCopy` from implementation.go: identical to `headerCopy`. -/
def queryCopyH (hp : Heap) (r : Option Nat) : Heap × Option Nat :=
  match r with
  | none => (hp, none)
  | some r0 =>
    let out := allocHMap hp (copyMapValue (readHMap hp r0))
    (out.1, some out.2)

/-- `Clone` from implementation.go: deep-clone the base URL, `make`+`copy`
both mutator slices, copy the header and query maps via
`headerCopy`/`queryCopy`, and share the transport pointer and the
marshaler/unmarshaler function values. -/
def CloneH (hp : Heap) (c : ClientH) : Heap × ClientH :=
  let pb := allocUrl hp (cloneUrl (readUrl hp c.base))
  let pr := allocArr pb.1 ((readArr pb.1 c.reqMutators.arr).take c.reqMutators.len)
  let ps := allocArr pr.1 ((readArr pr.1 c.resMutators.arr).take c.resMutators.len)
  let ph := headerCopyH ps.1 c.headers
  let pq := queryCopyH ph.1 c.query
  (pq.1,
   { base := pb.2,
     reqMutators := ⟨pr.2, c.reqMutators.len⟩,
     resMutators := ⟨ps.2, c.resMutators.len⟩,
     headers := ph.2,
     query := pq.2,
     tclient := c.tclient,
     marshaler := c.marshaler,
     unmarshaler := c.unmarshaler })

/-- A slice reference is valid in a heap when its backing array exists and is
at least as long as the slice. -/
def sliceValid (h : Heap) (s : SliceRef) : Bool :=
  decide (s.arr < h.arrs.length) && decide (s.len ≤ (readArr h s.arr).length)

/-- A heap-level client is valid when all its references point into the heap
and its map values are well-formed Go maps (unique keys). -/
def clientValid (h : Heap) (c : ClientH) : Bool :=
  decide (c.base < h.urls.length) &&
  sliceValid h c.reqMutators &&
  sliceValid h c.resMutators &&
  (match c.headers with
   | none => true
   | some r => decide (r < h.hmaps.length) && decide (mapKeys (readHMap h r)).Nodup) &&
  (match c.query with
   | none => true
   | some r => decide (r < h.hmaps.length) && decide (mapKeys (readHMap h r)).Nodup)

/-! ## Body codec

Errors are modelled by their Go message strings.  Request/response body bytes
are modelled as character lists (the library treats bodies as opaque byte
runs; UTF-8 details never matter to it). -/

/-- Go error values, by message. -/
abbrev GoErr := String

/-- The `interface{}` values this library's codecs inspect: strings and (as a
representative unsupported value type) integers. -/
inductive GoVal
  | str (s : String)
  | int (n : Int)
deriving DecidableEq, Repr

/-- An unmarshal destination (`interface{}` holding a value or a pointer):
`strRef r` is a non-nil `*string` pointing at cell `r` of the destination
store, `strVal`/`intVal` are values passed without a pointer. -/
inductive Dest
  | strRef (r : Nat)
  | strVal (s : String)
  | intVal (n : Int)
deriving DecidableEq, Repr

/-- Whether the destination is a reference (a pointer the codec can write
through). -/
def Dest.isRef : Dest → Bool
  | .strRef _ => true
  | .strVal _ => false
  | .intVal _ => false

/-- The store of caller-owned destination cells that decoding writes into. -/
abbrev DStore := List String

/-- A marshal function: `func(v interface{}) (ReadLener, error)`; the
returned `ReadLener` is modelled by the byte run it yields. -/
abbrev MarshalerF := GoVal → Except GoErr (List Char)

/-- An unmarshal function: `func(b []byte, v interface{}) error`, writing
through the destination into the destination store. -/
abbrev UnmarshalerF := List Char → Dest → DStore → DStore × Option GoErr

/-- `StringMarshalerFunc` from client.go: a `string` is turned into its byte
run (`StringToReadLener`); any other value type is rejected.  (The
`fmt.Stringer` case is not modelled: no model value implements it.) -/
def StringMarshalerFunc (v : GoVal) : Except GoErr (List Char) :=
  match v with
  | .str t => .ok t.toList
  | _ => .error "Did not know how to use the body as text."

/-- `StringUnmarshalerFunc` from client.go: a `*string` destination is
settable (`reflect.ValueOf(v).Elem().CanSet()` holds for a non-nil pointer
dereference) and receives `string(b)`; a `string` value gets the
pass-by-reference error; anything else falls through to the generic error. -/
def StringUnmarshalerFunc (b : List Char) (v : Dest) (σ : DStore) : DStore × Option GoErr :=
  match v with
  | .strRef r => (σ.set r (String.mk b), none)
  | .strVal _ =>
    (σ, some "You must pass the string by reference or pass a pointer. For example, ( &stringVar )")
  | .intVal _ => (σ, some "Did not know how to unmarshal the text coming back.")

/-- Body of a JSON string literal up to the closing quote.  Escape sequences
are not modelled (no claim exercises them). -/
def strLitBody : List Char → Option (List Char)
  | [] => none
  | c :: rest =>
    if c = '\"' then (if rest.isEmpty then some [] else none)
    else if c = '\\' then none
    else (strLitBody rest).map (fun cs => c :: cs)

/-- A JSON string literal, as accepted when decoding into a `*string`. -/
def jsonDecodeStrLit (cs : List Char) : Option String :=
  match cs with
  | '\"' :: rest => (strLitBody rest).map String.mk
  | _ => none

/-- `JsonUnmarshalerFunc` from client.go wraps `encoding/json.Unmarshal`.
Modelled from the Go standard library contract: a destination that is not a
pointer makes `json.Unmarshal` return an `InvalidUnmarshalError`
("json: Unmarshal(non-pointer <type>)") before any decoding happens; a
settable `*string` succeeds exactly on a JSON string literal. -/
def JsonUnmarshalerFunc (b : List Char) (v : Dest) (σ : DStore) : DStore × Option GoErr :=
  match v with
  | .strRef r =>
    match jsonDecodeStrLit b with
    | some s => (σ.set r s, none)
    | none => (σ, some "json: cannot unmarshal value into Go value of type string")
  | .strVal _ => (σ, some "json: Unmarshal(non-pointer string)")
  | .intVal _ => (σ, some "json: Unmarshal(non-pointer int)")

/-- Does `hay` start with `needle`? -/
def leadsWith : List Char → List Char → Bool
  | _, [] => true
  | [], _ :: _ => false
  | a :: hs, b :: ns => a = b && leadsWith hs ns

/-- Does `hay` contain `needle` as a contiguous run? -/
def hasSeq : List Char → List Char → Bool
  | [], ns => ns.isEmpty
  | a :: hs, ns => leadsWith (a :: hs) ns || hasSeq hs ns

/-- An error message that tells the caller to pass the destination by
reference. -/
def mentionsByReference (e : GoErr) : Bool :=
  hasSeq e.toList "by reference".toList

/-! ## Requests, responses, mutators, transport -/

/-- The parts of `http.Request` this library builds and its mutators see. -/
structure Req where
  method : String
  url : Url
  /-- The merged per-call query; the source serializes it into
  `r.URL.RawQuery` with `query.Encode()`, which is kept structured here. -/
  queryVals : QMap
  headers : HMap
  contentLength : Int
  body : Option (List Char)
deriving DecidableEq, Repr

/-- The parts of `http.Response` the dispatcher reads.  `bodyChars` and
`readErr` model what `ioutil.ReadAll(response.Body)` would yield;
`bodyClosed` records whether `response.Body.Close()` has run. -/
structure Resp where
  statusCode : Nat
  contentLength : Int
  bodyChars : List Char
  readErr : Option GoErr
  bodyClosed : Bool
deriving DecidableEq, Repr

/-- `response.Body.Close()`. -/
def closeBody (resp : Resp) : Resp := { resp with bodyClosed := true }

/-- A request mutator: mutates the in-flight request, may fail. -/
abbrev RM := Req → Req × Option GoErr

/-- A response mutator: mutates the received response, may fail. -/
abbrev RespM := Resp → Resp × Option GoErr

/-- The transport: `http.Client.Do` returns either a response or an error,
never both. -/
abbrev Transport := Req → Except GoErr Resp

/-- `UnmarshalMap` (`map[int]interface{}`): status code to destination;
a key may be bound to a nil destination. -/
abbrev UMap := List (Nat × Option Dest)

/-- Go's `destination, ok := unmarshalMap[code]` read. -/
def uLookup (m : UMap) (code : Nat) : Option (Option Dest) :=
  match m with
  | [] => none
  | (c, d) :: rest => if c = code then some d else uLookup rest code

/-- The behavioural client: the same `client` struct, with the fields the
dispatch pipeline reads held as values. -/
structure ClientB where
  base : Url
  reqMutators : List RM
  resMutators : List RespM
  headers : HMap
  query : QMap
  httpClient : Option Transport
  marshaler : Option MarshalerF
  unmarshaler : Option UnmarshalerF

/-- `GetHttpClient`: defaults the transport to `http.DefaultClient`
(`defTr`) when none is set, recording that default in the client. -/
def GetHttpClientB (defTr : Transport) (c : ClientB) : ClientB × Transport :=
  match c.httpClient with
  | none => ({ c with httpClient := some defTr }, defTr)
  | some t => (c, t)

/-! ## The dispatcher `do` -/

/-- Observable steps of one dispatch, emitted in order: one `reqMutEv` per
request mutator actually run, `transportEv` for the transport call, one
`respMutEv` per response mutator actually run, `decodeEnterEv` when the
status-keyed decode block is entered (its `ioutil.ReadAll`), and
`unmarshalEv` when the unmarshaler is actually applied. -/
inductive Ev
  | reqMutEv
  | transportEv
  | respMutEv
  | decodeEnterEv
  | unmarshalEv
deriving DecidableEq, Repr

/-- The outcome of one dispatch: the returned response and error, the
client's post-call state, the destination store after any decoding, and the
event trace. -/
structure DoOut where
  resp : Option Resp
  err : Option GoErr
  client : ClientB
  dstore : DStore
  trace : List Ev

/-- The request-mutator loop of `do`: run each mutator in order, stopping at
the first failure. -/
def runReqMutators : List RM → Req → Req × Option GoErr × List Ev
  | [], r => (r, none, [])
  | m :: ms, r =>
    match (m r).2 with
    | some e => ((m r).1, some e, [Ev.reqMutEv])
    | none =>
      let out := runReqMutators ms (m r).1
      (out.1, out.2.1, Ev.reqMutEv :: out.2.2)

/-- The response-mutator loop of `do`: run each mutator in order, stopping at
the first failure. -/
def runRespMutators : List RespM → Resp → Resp × Option GoErr × List Ev
  | [], resp => (resp, none, [])
  | m :: ms, resp =>
    match (m resp).2 with
    | some e => ((m resp).1, some e, [Ev.respMutEv])
    | none =>
      let out := runRespMutators ms (m resp).1
      (out.1, out.2.1, Ev.respMutEv :: out.2.2)

/-- `do` from implementation.go.  A failing request mutator returns
`(nil, err)` before the transport; a transport error returns `(nil, err)`;
from the moment the transport yields a response, `defer response.Body.Close()`
closes the body on every return path; a failing response mutator returns the
(mutated, closed) response with the error; the unmarshaler field is defaulted
to `StringUnmarshalerFunc` when unset; the decode block runs only when an
unmarshal map was given, the content length is positive or -1, and the map
binds the response's status code to a non-nil destination.  The error of the
unmarshaler call itself is assigned to a block-scoped `err` (shadowing the
function-level one declared at the top of `do`), so it never reaches the
final `if err != nil` check and the call returns `(response, nil)`. -/
def doStep (defTr : Transport) (c : ClientB) (r : Req) (unmarshalMap : Option UMap)
    (σ : DStore) : DoOut :=
  match runReqMutators c.reqMutators r with
  | (_, some e, t1) => ⟨none, some e, c, σ, t1⟩
  | (r1, none, t1) =>
    let pc := GetHttpClientB defTr c
    let c1 := pc.1
    match pc.2 r1 with
    | .error e => ⟨none, some e, c1, σ, t1 ++ [Ev.transportEv]⟩
    | .ok response =>
      match runRespMutators c1.resMutators response with
      | (resp1, some e, t2) =>
        ⟨some (closeBody resp1), some e, c1, σ, t1 ++ Ev.transportEv :: t2⟩
      | (resp1, none, t2) =>
        let c2 := match c1.unmarshaler with
                  | none => { c1 with unmarshaler := some StringUnmarshalerFunc }
                  | some _ => c1
        let um := c2.unmarshaler.getD StringUnmarshalerFunc
        let tpre := t1 ++ Ev.transportEv :: t2
        match unmarshalMap with
        | none => ⟨some (closeBody resp1), none, c2, σ, tpre⟩
        | some m =>
          if resp1.contentLength > 0 ∨ resp1.contentLength = -1 then
            match uLookup m resp1.statusCode with
            | some (some dest) =>
              match resp1.readErr with
              | some e => ⟨some (closeBody resp1), some e, c2, σ, tpre ++ [Ev.decodeEnterEv]⟩
              | none =>
                let out := um resp1.bodyChars dest σ
                ⟨some (closeBody resp1), none, c2, out.1, tpre ++ [Ev.decodeEnterEv, Ev.unmarshalEv]⟩
            | some none => ⟨some (closeBody resp1), none, c2, σ, tpre⟩
            | none => ⟨some (closeBody resp1), none, c2, σ, tpre⟩
          else ⟨some (closeBody resp1), none, c2, σ, tpre⟩

/-! ## `prepareRequest`, the verb dispatchers, `SetBaseUrl`, `New` -/

/-- `prepareRequest` from implementation.go: clone the base URL and append
the path, merge default and per-call headers and query, default the
marshaler to `StringMarshalerFunc` when unset, build the request
(`http.NewRequest` on a URL produced by `url.URL.String` succeeds for the
URLs modelled here), and marshal the body when present, recording its length
as the content length. -/
def prepareRequest (c : ClientB) (method path : String) (headers : HMap) (query : QMap)
    (body : Option GoVal) : ClientB × Except GoErr Req :=
  let reqUrl := cloneUrl c.base
  let reqUrl := { reqUrl with path := reqUrl.path ++ path }
  let headers := setupHeaders [c.headers, headers]
  let query := setupQuery [c.query, query]
  let c := match c.marshaler with
           | none => { c with marshaler := some StringMarshalerFunc }
           | some _ => c
  let mf := c.marshaler.getD StringMarshalerFunc
  let r : Req := { method := method, url := reqUrl, queryVals := query,
                   headers := headers, contentLength := 0, body := none }
  match body with
  | none => (c, .ok r)
  | some b =>
    match mf b with
    | .error e => (c, .error e)
    | .ok chars =>
      (c, .ok { r with contentLength := (chars.length : Int), body := some chars })

/-- `Get` from implementation.go: `prepareRequest` then `do`; a failing
`prepareRequest` returns `(nil, err)` without dispatching. -/
def GetM (defTr : Transport) (c : ClientB) (path : String) (headers : HMap)
    (query : QMap) (unmarshalMap : Option UMap) (σ : DStore) : DoOut :=
  match prepareRequest c "GET" path headers query none with
  | (c1, .error e) => ⟨none, some e, c1, σ, []⟩
  | (c1, .ok r) => doStep defTr c1 r unmarshalMap σ

/-- `Post` from implementation.go: like `Get`, with a body. -/
def PostM (defTr : Transport) (c : ClientB) (path : String) (headers : HMap)
    (query : QMap) (body : Option GoVal) (unmarshalMap : Option UMap) (σ : DStore) : DoOut :=
  match prepareRequest c "POST" path headers query body with
  | (c1, .error e) => ⟨none, some e, c1, σ, []⟩
  | (c1, .ok r) => doStep defTr c1 r unmarshalMap σ

/-- `SetBaseUrl` from implementation.go: reject nil, otherwise clear the
URL's query (`u.RawQuery = ""`) and store it. -/
def SetBaseUrlM (c : ClientB) (u : Option Url) : ClientB × Option GoErr :=
  match u with
  | none => (c, some "Please specify a non nil url.")
  | some u => ({ c with base := { u with rawQuery := "" } }, none)

/-- `New` from implementation.go: reject nil, otherwise store the passed URL
as the base, as-is, in a zero-valued client. -/
def NewM (base : Option Url) : Except GoErr ClientB :=
  match base with
  | none => .error "Please specify a non nil url."
  | some b =>
    .ok { base := b, reqMutators := [], resMutators := [], headers := [], query := [],
          httpClient := none, marshaler := none, unmarshaler := none }

/-! ## Pipeline lemmas -/

theorem runReqMutators_ok_trace (ms : List RM) :
    ∀ (r r' : Req) (t : List Ev), runReqMutators ms r = (r', none, t) →
      t = List.replicate ms.length Ev.reqMutEv := by
  induction ms with
  | nil =>
    intro r r' t h
    simp only [runReqMutators, Prod.mk.injEq] at h
    simp [← h.2.2]
  | cons m rest ih =>
    intro r r' t h
    cases hm : (m r).2 with
    | some e =>
      simp only [runReqMutators, hm] at h
      exact absurd h (by simp)
    | none =>
      simp only [runReqMutators, hm, Prod.mk.injEq] at h
      obtain ⟨h1, h2, h3⟩ := h
      have hrec : runReqMutators rest (m r).1
          = ((runReqMutators rest (m r).1).1, none, (runReqMutators rest (m r).1).2.2) := by
        rw [← h2]
      have hih := ih (m r).1 _ _ hrec
      simp [← h3, hih, List.replicate_succ]

theorem runReqMutators_append (pre : List RM) :
    ∀ (ms : List RM) (r r' : Req) (t : List Ev),
      runReqMutators pre r = (r', none, t) →
      runReqMutators (pre ++ ms) r
        = ((runReqMutators ms r').1, (runReqMutators ms r').2.1,
           t ++ (runReqMutators ms r').2.2) := by
  induction pre with
  | nil =>
    intro ms r r' t h
    simp only [runReqMutators, Prod.mk.injEq] at h
    obtain ⟨h1, _, h3⟩ := h
    subst h1
    simp [← h3]
  | cons m rest ih =>
    intro ms r r' t h
    cases hm : (m r).2 with
    | some e =>
      simp only [runReqMutators, hm] at h
      exact absurd h (by simp)
    | none =>
      simp only [runReqMutators, hm, Prod.mk.injEq] at h
      obtain ⟨h1, h2, h3⟩ := h
      have hrec : runReqMutators rest (m r).1
          = (r', none, (runReqMutators rest (m r).1).2.2) := by
        rw [← h1, ← h2]
      have hih := ih ms (m r).1 r' _ hrec
      show runReqMutators (m :: (rest ++ ms)) r = _
      simp only [runReqMutators, hm, hih]
      simp [← h3]

theorem runRespMutators_ok_trace (ms : List RespM) :
    ∀ (x x' : Resp) (t : List Ev), runRespMutators ms x = (x', none, t) →
      t = List.replicate ms.length Ev.respMutEv := by
  induction ms with
  | nil =>
    intro x x' t h
    simp only [runRespMutators, Prod.mk.injEq] at h
    simp [← h.2.2]
  | cons m rest ih =>
    intro x x' t h
    cases hm : (m x).2 with
    | some e =>
      simp only [runRespMutators, hm] at h
      exact absurd h (by simp)
    | none =>
      simp only [runRespMutators, hm, Prod.mk.injEq] at h
      obtain ⟨h1, h2, h3⟩ := h
      have hrec : runRespMutators rest (m x).1
          = ((runRespMutators rest (m x).1).1, none, (runRespMutators rest (m x).1).2.2) := by
        rw [← h2]
      have hih := ih (m x).1 _ _ hrec
      simp [← h3, hih, List.replicate_succ]

theorem runRespMutators_append (pre : List RespM) :
    ∀ (ms : List RespM) (x x' : Resp) (t : List Ev),
      runRespMutators pre x = (x', none, t) →
      runRespMutators (pre ++ ms) x
        = ((runRespMutators ms x').1, (runRespMutators ms x').2.1,
           t ++ (runRespMutators ms x').2.2) := by
  induction pre with
  | nil =>
    intro ms x x' t h
    simp only [runRespMutators, Prod.mk.injEq] at h
    obtain ⟨h1, _, h3⟩ := h
    subst h1
    simp [← h3]
  | cons m rest ih =>
    intro ms x x' t h
    cases hm : (m x).2 with
    | some e =>
      simp only [runRespMutators, hm] at h
      exact absurd h (by simp)
    | none =>
      simp only [runRespMutators, hm, Prod.mk.injEq] at h
      obtain ⟨h1, h2, h3⟩ := h
      have hrec : runRespMutators rest (m x).1
          = (x', none, (runRespMutators rest (m x).1).2.2) := by
        rw [← h1, ← h2]
      have hih := ih ms (m x).1 x' _ hrec
      show runRespMutators (m :: (rest ++ ms)) x = _
      simp only [runRespMutators, hm, hih]
      simp [← h3]

/-- `GetHttpClientB` changes only the `httpClient` field. -/
theorem GetHttpClientB_fields (defTr : Transport) (c : ClientB) :
    (GetHttpClientB defTr c).1.reqMutators = c.reqMutators ∧
    (GetHttpClientB defTr c).1.resMutators = c.resMutators ∧
    (GetHttpClientB defTr c).1.marshaler = c.marshaler ∧
    (GetHttpClientB defTr c).1.unmarshaler = c.unmarshaler := by
  cases h : c.httpClient <;> simp [GetHttpClientB, h]

/-! ## Claim theorems -/

/-- A base URL carrying a query string, used to exercise `New` and
`SetBaseUrl`. -/
def urlWithQuery : Url :=
  { scheme := "http", opq := "", user := none, host := "example.com",
    path := "/", rawQuery := "a=b", fragment := "" }

/-- C5 counterexample: `New` stores the passed URL verbatim, so a base URL
constructed via `New` from a URL whose query is `a=b` still carries query
`a=b`, contradicting the claim that the base URL's query is empty after
construction via `New`. -/
theorem C5_counterexample_new_keeps_query :
    ((NewM (some urlWithQuery)).toOption.map (fun c => c.base.rawQuery)) = some "a=b" ∧
    "a=b" ≠ "" := by
  exact ⟨rfl, by decide⟩

/-- C5 (amended): every successful `SetBaseUrl` stores a base URL whose query
component is empty, regardless of the query the input URL carried; `New`,
however, stores the input URL exactly as passed (including any query). -/
theorem C5_base_url_query (c : ClientB) (u v : Url) :
    (SetBaseUrlM c (some u)).2 = none ∧
    (SetBaseUrlM c (some u)).1.base.rawQuery = "" ∧
    ((NewM (some v)).toOption.map (fun cb => cb.base)) = some v := by
  exact ⟨rfl, rfl, rfl⟩

/-- The text unmarshaler's pass-by-reference error message. -/
def strByRefMsg : GoErr :=
  "You must pass the string by reference or pass a pointer. For example, ( &stringVar )"

/-- C7 counterexample: the JSON codec rejects a non-reference destination
with Go's `InvalidUnmarshalError` ("json: Unmarshal(non-pointer string)"),
which does not mention passing by reference, so "fails with a descriptive
must-pass-by-reference error, for every codec" is false as stated. -/
theorem C7_counterexample_json_nonref_message :
    Dest.isRef (Dest.strVal "") = false ∧
    (JsonUnmarshalerFunc "x".toList (Dest.strVal "") []).2
      = some "json: Unmarshal(non-pointer string)" ∧
    mentionsByReference "json: Unmarshal(non-pointer string)" = false := by
  exact ⟨rfl, rfl, by decide⟩

/-- C7 (amended): for every codec provided by the library, unmarshaling into
a non-reference destination fails with an error; the text codec's error for a
string passed by value is the descriptive "must pass ... by reference"
message, while the JSON codec surfaces Go's standard non-pointer unmarshal
error. -/
theorem C7_nonref_destination_fails (b : List Char) (σ : DStore) (d : Dest)
    (h : d.isRef = false) :
    ((StringUnmarshalerFunc b d σ).2).isSome = true ∧
    ((JsonUnmarshalerFunc b d σ).2).isSome = true ∧
    (∀ s, (StringUnmarshalerFunc b (Dest.strVal s) σ).2 = some strByRefMsg) ∧
    mentionsByReference strByRefMsg = true := by
  refine ⟨?_, ?_, fun s => rfl, by decide⟩
  · cases d <;> simp_all [Dest.isRef, StringUnmarshalerFunc]
  · cases d <;> simp_all [Dest.isRef, JsonUnmarshalerFunc]

/-- C7 witness: the amended theorem applied at a concrete non-reference
destination. -/
theorem C7_nonref_destination_fails_witness :
    Dest.isRef (Dest.intVal 3) = false ∧
    (((StringUnmarshalerFunc "hi".toList (Dest.intVal 3) []).2).isSome = true ∧
     ((JsonUnmarshalerFunc "hi".toList (Dest.intVal 3) []).2).isSome = true ∧
     (∀ s, (StringUnmarshalerFunc "hi".toList (Dest.strVal s) []).2 = some strByRefMsg) ∧
     mentionsByReference strByRefMsg = true) :=
  ⟨rfl, C7_nonref_destination_fails "hi".toList [] (Dest.intVal 3) rfl⟩

/-- C8: marshaling a string with the text marshaler and unmarshaling the
produced bytes with the text unmarshaler into a string reference restores
exactly the original string, with no error at either step. -/
theorem C8_text_roundtrip (s : String) (σ : DStore) (r : Nat) (h : r < σ.length) :
    StringMarshalerFunc (GoVal.str s) = Except.ok s.toList ∧
    (StringUnmarshalerFunc s.toList (Dest.strRef r) σ).2 = none ∧
    ((StringUnmarshalerFunc s.toList (Dest.strRef r) σ).1)[r]? = some s := by
  refine ⟨rfl, rfl, ?_⟩
  have hs : String.mk s.toList = s := by cases s; rfl
  simp [StringUnmarshalerFunc, List.getElem?_set_self, h, hs]

/-- C8 witness: the round trip at `"hello"` into cell 0 of a one-cell
store. -/
theorem C8_text_roundtrip_witness :
    0 < ([""] : DStore).length ∧
    (StringMarshalerFunc (GoVal.str "hello") = Except.ok "hello".toList ∧
     (StringUnmarshalerFunc "hello".toList (Dest.strRef 0) [""]).2 = none ∧
     ((StringUnmarshalerFunc "hello".toList (Dest.strRef 0) [""]).1)[0]? = some "hello") :=
  ⟨by decide, C8_text_roundtrip "hello" [""] 0 (by decide)⟩

/-- On two well-formed maps, the merge loop is: default map first, then the
override map assigned binding-by-binding over it. -/
theorem setupHeaders_pair (D O : HMap) (hD : (mapKeys D).Nodup) :
    setupHeaders [D, O] = O.foldl (fun a p => mapAssign a p.1 p.2) D := by
  simp [setupHeaders, copy_loop_eq_self D hD]

theorem setupQuery_pair (D O : QMap) (hD : (mapKeys D).Nodup) :
    setupQuery [D, O] = O.foldl (fun a p => mapAssign a p.1 p.2) D := by
  simp [setupQuery, copy_loop_eq_self D hD]

/-- C4: merging default map D with override map O (as `setupHeaders` and
`setupQuery` do when building a request) yields, at every key, O's whole
value list when O binds the key and D's binding otherwise (replace, not
append); and the heap-level merge allocates a fresh map, so writing any value
into the returned map leaves the maps behind D's and O's references
unchanged. -/
theorem C4_merge_replace_and_fresh (D O : HMap) (k : String)
    (hD : (mapKeys D).Nodup) (hO : (mapKeys O).Nodup)
    (h : Heap) (rD rO : Nat) (hrD : rD < h.hmaps.length) (hrO : rO < h.hmaps.length) :
    (mapLookup (setupHeaders [D, O]) k
      = match mapLookup O k with
        | some v => some v
        | none => mapLookup D k) ∧
    (mapLookup (setupQuery [D, O]) k
      = match mapLookup O k with
        | some v => some v
        | none => mapLookup D k) ∧
    (setupHeadersH h [rD, rO]).2 ≠ rD ∧ (setupHeadersH h [rD, rO]).2 ≠ rO ∧
    (∀ m, readHMap (writeHMap (setupHeadersH h [rD, rO]).1 (setupHeadersH h [rD, rO]).2 m) rD
        = readHMap h rD) ∧
    (∀ m, readHMap (writeHMap (setupHeadersH h [rD, rO]).1 (setupHeadersH h [rD, rO]).2 m) rO
        = readHMap h rO) ∧
    (setupQueryH h [rD, rO]).2 ≠ rD ∧ (setupQueryH h [rD, rO]).2 ≠ rO ∧
    (∀ m, readHMap (writeHMap (setupQueryH h [rD, rO]).1 (setupQueryH h [rD, rO]).2 m) rD
        = readHMap h rD) ∧
    (∀ m, readHMap (writeHMap (setupQueryH h [rD, rO]).1 (setupQueryH h [rD, rO]).2 m) rO
        = readHMap h rO) := by
  have hfreshH : (setupHeadersH h [rD, rO]).2 = h.hmaps.length := rfl
  have hfreshQ : (setupQueryH h [rD, rO]).2 = h.hmaps.length := rfl
  refine ⟨?_, ?_, ?_, ?_, ?_, ?_, ?_, ?_, ?_, ?_⟩
  · rw [setupHeaders_pair D O hD]
    exact mapLookup_foldl_mapAssign O D k hO
  · rw [setupQuery_pair D O hD]
    exact mapLookup_foldl_mapAssign O D k hO
  · rw [hfreshH]; omega
  · rw [hfreshH]; omega
  · intro m
    rw [readHMap_writeHMap_ne _ _ _ _ (by rw [hfreshH]; omega)]
    exact readHMap_allocHMap h _ rD hrD
  · intro m
    rw [readHMap_writeHMap_ne _ _ _ _ (by rw [hfreshH]; omega)]
    exact readHMap_allocHMap h _ rO hrO
  · rw [hfreshQ]; omega
  · rw [hfreshQ]; omega
  · intro m
    rw [readHMap_writeHMap_ne _ _ _ _ (by rw [hfreshQ]; omega)]
    exact readHMap_allocHMap h _ rD hrD
  · intro m
    rw [readHMap_writeHMap_ne _ _ _ _ (by rw [hfreshQ]; omega)]
    exact readHMap_allocHMap h _ rO hrO

/-- C4 witness: the merge facts at a concrete default map, override map, key
and two-map heap. -/
theorem C4_merge_replace_and_fresh_witness :
    ((mapKeys [("A", ["1"])]).Nodup ∧ (mapKeys [("A", ["2"]), ("B", ["3"])]).Nodup ∧
     0 < (Heap.mk [] [[("A", ["1"])], [("A", ["2"]), ("B", ["3"])]] []).hmaps.length ∧
     1 < (Heap.mk [] [[("A", ["1"])], [("A", ["2"]), ("B", ["3"])]] []).hmaps.length) ∧
    (mapLookup (setupHeaders [[("A", ["1"])], [("A", ["2"]), ("B", ["3"])]]) "A"
      = match mapLookup [("A", ["2"]), ("B", ["3"])] "A" with
        | some v => some v
        | none => mapLookup [("A", ["1"])] "A") := by
  have hfacts :
      (mapKeys [("A", ["1"])]).Nodup ∧ (mapKeys [("A", ["2"]), ("B", ["3"])]).Nodup ∧
      0 < (Heap.mk [] [[("A", ["1"])], [("A", ["2"]), ("B", ["3"])]] []).hmaps.length ∧
      1 < (Heap.mk [] [[("A", ["1"])], [("A", ["2"]), ("B", ["3"])]] []).hmaps.length := by
    refine ⟨by decide, by decide, by decide, by decide⟩
  refine ⟨hfacts, ?_⟩
  exact (C4_merge_replace_and_fresh [("A", ["1"])] [("A", ["2"]), ("B", ["3"])] "A"
    hfacts.1 hfacts.2.1 (Heap.mk [] [[("A", ["1"])], [("A", ["2"]), ("B", ["3"])]] [])
    0 1 hfacts.2.2.1 hfacts.2.2.2).1

/-- C2: if some request mutator fails (after a prefix of mutators that
succeed), the dispatch returns a nil response with exactly that error, the
client is untouched, the transport is never invoked, and only the prefix plus
the failing mutator ever ran. -/
theorem C2_req_mutator_failure (defTr : Transport) (c : ClientB) (r : Req)
    (umap : Option UMap) (σ : DStore) (pre post : List RM) (m : RM)
    (r' : Req) (t : List Ev) (e : GoErr)
    (hmuts : c.reqMutators = pre ++ m :: post)
    (hpre : runReqMutators pre r = (r', none, t))
    (hm : (m r').2 = some e) :
    (doStep defTr c r umap σ).resp = none ∧
    (doStep defTr c r umap σ).err = some e ∧
    (doStep defTr c r umap σ).client = c ∧
    Ev.transportEv ∉ (doStep defTr c r umap σ).trace ∧
    List.count Ev.reqMutEv (doStep defTr c r umap σ).trace = pre.length + 1 := by
  have happ := runReqMutators_append pre (m :: post) r r' t hpre
  have hfail : runReqMutators (m :: post) r' = ((m r').1, some e, [Ev.reqMutEv]) := by
    simp [runReqMutators, hm]
  rw [hfail] at happ
  have htrace : t = List.replicate pre.length Ev.reqMutEv :=
    runReqMutators_ok_trace pre r r' t hpre
  have hdo : doStep defTr c r umap σ = ⟨none, some e, c, σ, t ++ [Ev.reqMutEv]⟩ := by
    simp only [doStep, hmuts, happ]
  rw [hdo]
  refine ⟨rfl, rfl, rfl, ?_, ?_⟩
  · simp [htrace, List.mem_replicate]
  · simp [htrace, List.count_replicate, List.count_cons, List.count_nil]

/-- C3: if the transport yields a response and some response mutator fails
(after a prefix of mutators that succeed), the dispatch returns that (closed)
response together with the mutator's error, only the prefix plus the failing
mutator ran, and the decode step never executes. -/
theorem C3_resp_mutator_failure (defTr : Transport) (c : ClientB) (r : Req)
    (umap : Option UMap) (σ : DStore) (r1 : Req) (t1 : List Ev)
    (resp x : Resp) (t2 : List Ev) (pre post : List RespM) (m : RespM) (e : GoErr)
    (hreq : runReqMutators c.reqMutators r = (r1, none, t1))
    (htr : (GetHttpClientB defTr c).2 r1 = Except.ok resp)
    (hmuts : c.resMutators = pre ++ m :: post)
    (hpre : runRespMutators pre resp = (x, none, t2))
    (hm : (m x).2 = some e) :
    (doStep defTr c r umap σ).resp = some (closeBody (m x).1) ∧
    (doStep defTr c r umap σ).err = some e ∧
    Ev.decodeEnterEv ∉ (doStep defTr c r umap σ).trace ∧
    Ev.unmarshalEv ∉ (doStep defTr c r umap σ).trace ∧
    (doStep defTr c r umap σ).dstore = σ ∧
    List.count Ev.respMutEv (doStep defTr c r umap σ).trace = pre.length + 1 := by
  have hfields := GetHttpClientB_fields defTr c
  have happ := runRespMutators_append pre (m :: post) resp x t2 hpre
  have hfail : runRespMutators (m :: post) x = ((m x).1, some e, [Ev.respMutEv]) := by
    simp [runRespMutators, hm]
  rw [hfail] at happ
  have ht1 : t1 = List.replicate c.reqMutators.length Ev.reqMutEv :=
    runReqMutators_ok_trace _ r r1 t1 hreq
  have ht2 : t2 = List.replicate pre.length Ev.respMutEv :=
    runRespMutators_ok_trace pre resp x t2 hpre
  have hdo : doStep defTr c r umap σ
      = ⟨some (closeBody (m x).1), some e, (GetHttpClientB defTr c).1, σ,
         t1 ++ Ev.transportEv :: (t2 ++ [Ev.respMutEv])⟩ := by
    simp only [doStep, hreq, htr, hfields.2.1, hmuts, happ]
  rw [hdo]
  refine ⟨rfl, rfl, ?_, ?_, rfl, ?_⟩
  · simp [ht1, ht2, List.mem_replicate]
  · simp [ht1, ht2, List.mem_replicate]
  · simp [ht1, ht2, List.count_replicate, List.count_cons, List.count_append]

/-- C10: whenever the transport returns a response, the dispatcher returns a
response whose body has been closed (the deferred `response.Body.Close()`
runs on every return path after the transport call). -/
theorem C10_body_always_closed (defTr : Transport) (c : ClientB) (r : Req)
    (umap : Option UMap) (σ : DStore) (r1 : Req) (t1 : List Ev) (resp : Resp)
    (hreq : runReqMutators c.reqMutators r = (r1, none, t1))
    (htr : (GetHttpClientB defTr c).2 r1 = Except.ok resp) :
    ∃ resp', (doStep defTr c r umap σ).resp = some resp' ∧ resp'.bodyClosed = true := by
  simp only [doStep, hreq, htr]
  rcases hrm : runRespMutators (GetHttpClientB defTr c).1.resMutators resp with ⟨x, ex, tx⟩
  cases ex with
  | some e => exact ⟨closeBody x, rfl, rfl⟩
  | none =>
    cases umap with
    | none => exact ⟨closeBody x, rfl, rfl⟩
    | some mm =>
      by_cases hcl : x.contentLength > 0 ∨ x.contentLength = -1
      · simp only [if_pos hcl]
        rcases hu : uLookup mm x.statusCode with _ | od
        · exact ⟨closeBody x, rfl, rfl⟩
        · cases od with
          | none => exact ⟨closeBody x, rfl, rfl⟩
          | some d =>
            cases hre : x.readErr with
            | some e => simp only [hre]; exact ⟨closeBody x, rfl, rfl⟩
            | none => simp only [hre]; exact ⟨closeBody x, rfl, rfl⟩
      · simp only [if_neg hcl]
        exact ⟨closeBody x, rfl, rfl⟩

/-- C1: with an unmarshal map supplied and a dispatch that reaches the decode
stage (request mutators, transport and response mutators all succeed), the
decode block is entered exactly when the response's content length is
positive or -1 and the map binds the response's exact status code to a
non-nil destination; when the block is skipped, the destination store is
untouched and no error is reported; when the unmarshaler runs, the
destination store becomes the store produced by the configured (or default
text) unmarshaler. -/
theorem C1_decode_policy (defTr : Transport) (c : ClientB) (r : Req) (mm : UMap)
    (σ : DStore) (r1 : Req) (t1 : List Ev) (resp x : Resp) (t2 : List Ev)
    (hreq : runReqMutators c.reqMutators r = (r1, none, t1))
    (htr : (GetHttpClientB defTr c).2 r1 = Except.ok resp)
    (hres : runRespMutators c.resMutators resp = (x, none, t2)) :
    ((Ev.decodeEnterEv ∈ (doStep defTr c r (some mm) σ).trace) ↔
      ((x.contentLength > 0 ∨ x.contentLength = -1) ∧
        ∃ d, uLookup mm x.statusCode = some (some d))) ∧
    (¬ ((x.contentLength > 0 ∨ x.contentLength = -1) ∧
        ∃ d, uLookup mm x.statusCode = some (some d)) →
      (doStep defTr c r (some mm) σ).dstore = σ ∧
      (doStep defTr c r (some mm) σ).err = none) ∧
    (∀ d, (x.contentLength > 0 ∨ x.contentLength = -1) →
      uLookup mm x.statusCode = some (some d) → x.readErr = none →
      (doStep defTr c r (some mm) σ).dstore
        = ((c.unmarshaler.getD StringUnmarshalerFunc) x.bodyChars d σ).1) := by
  have hfields := GetHttpClientB_fields defTr c
  have ht1 : t1 = List.replicate c.reqMutators.length Ev.reqMutEv :=
    runReqMutators_ok_trace _ r r1 t1 hreq
  have ht2 : t2 = List.replicate c.resMutators.length Ev.respMutEv :=
    runRespMutators_ok_trace _ resp x t2 hres
  have hres' : runRespMutators (GetHttpClientB defTr c).1.resMutators resp = (x, none, t2) := by
    rw [hfields.2.1, hres]
  have hcu0 : (GetHttpClientB defTr c).1.unmarshaler = c.unmarshaler := hfields.2.2.2
  simp only [doStep, hreq, htr, hres']
  by_cases hcl : x.contentLength > 0 ∨ x.contentLength = -1
  · simp only [if_pos hcl]
    rcases hu : uLookup mm x.statusCode with _ | od
    · refine ⟨?_, fun _ => ⟨rfl, rfl⟩, ?_⟩
      · simp [ht1, ht2, List.mem_replicate]
      · intro d _ hd _
        exact absurd hd (by simp)
    · cases od with
      | none =>
        refine ⟨?_, fun _ => ⟨rfl, rfl⟩, ?_⟩
        · simp [ht1, ht2, List.mem_replicate]
        · intro d _ hd _
          exact absurd hd (by simp)
      | some d0 =>
        cases hre : x.readErr with
        | some e =>
          refine ⟨?_, ?_, ?_⟩
          · simp [ht1, ht2, List.mem_replicate, hcl]
          · intro hnot
            exact absurd ⟨hcl, d0, rfl⟩ hnot
          · intro d _ _ hnone
            exact absurd hnone (by simp)
        | none =>
          refine ⟨?_, ?_, ?_⟩
          · simp [ht1, ht2, List.mem_replicate, hcl]
          · intro hnot
            exact absurd ⟨hcl, d0, rfl⟩ hnot
          · intro d hcl2 hd hnone
            have hdd : d0 = d := Option.some.inj (Option.some.inj hd)
            subst hdd
            cases hcu : c.unmarshaler with
            | none =>
              rw [hcu] at hcu0
              simp [hcu0]
            | some f =>
              rw [hcu] at hcu0
              simp [hcu0]
  · simp only [if_neg hcl]
    refine ⟨?_, ?_, ?_⟩
    · constructor
      · intro hmem
        exact absurd hmem (by simp [ht1, ht2, List.mem_replicate])
      · intro hcond
        exact absurd hcond.1 hcl
    · intro _
      exact ⟨trivial, trivial⟩
    · intro d hcl2 _ _
      exact absurd hcl2 hcl

/-- `prepareRequest` never changes the client's unmarshaler field. -/
theorem prepareRequest_unmarshaler (c : ClientB) (method path : String)
    (hd : HMap) (qr : QMap) (body : Option GoVal) :
    (prepareRequest c method path hd qr body).1.unmarshaler = c.unmarshaler := by
  cases hcm : c.marshaler <;>
    cases body with
    | none => simp [prepareRequest, hcm]
    | some b =>
      simp only [prepareRequest, hcm]
      split <;> rfl

/-- `prepareRequest` always leaves the marshaler field set: the configured
marshaler when there was one, the default text marshaler otherwise. -/
theorem prepareRequest_marshaler (c : ClientB) (method path : String)
    (hd : HMap) (qr : QMap) (body : Option GoVal) :
    (prepareRequest c method path hd qr body).1.marshaler
      = some (c.marshaler.getD StringMarshalerFunc) := by
  cases hcm : c.marshaler <;>
    cases body with
    | none => simp [prepareRequest, hcm]
    | some b =>
      simp only [prepareRequest, hcm, Option.getD_some, Option.getD_none]
      split <;> simp [hcm]

/-- C9: dispatch mutates the client's codec configuration.  Building a
request (any verb, any body) permanently installs the default text marshaler
when none is set; and a dispatch that reaches the stage after the response
mutators permanently installs the default text unmarshaler when none is set,
so later reads of the configuration see the defaults. -/
theorem C9_dispatch_installs_defaults (defTr : Transport) (c : ClientB) (path : String)
    (hd : HMap) (qr : QMap) (umap : Option UMap) (σ : DStore)
    (c1 : ClientB) (r r1 : Req) (t1 : List Ev) (resp x : Resp) (t2 : List Ev)
    (hm : c.marshaler = none) (hu : c.unmarshaler = none)
    (hprep : prepareRequest c "GET" path hd qr none = (c1, Except.ok r))
    (hreq : runReqMutators c1.reqMutators r = (r1, none, t1))
    (htr : (GetHttpClientB defTr c1).2 r1 = Except.ok resp)
    (hres : runRespMutators c1.resMutators resp = (x, none, t2)) :
    (∀ method p hh qq body, ((prepareRequest c method p hh qq body).1).marshaler
        = some StringMarshalerFunc) ∧
    (GetM defTr c path hd qr umap σ).client.marshaler = some StringMarshalerFunc ∧
    (GetM defTr c path hd qr umap σ).client.unmarshaler = some StringUnmarshalerFunc := by
  have hmarsh : ∀ method p hh qq body, ((prepareRequest c method p hh qq body).1).marshaler
      = some StringMarshalerFunc := by
    intro method p hh qq body
    rw [prepareRequest_marshaler, hm]
    rfl
  have hp1 : (prepareRequest c "GET" path hd qr none).1 = c1 := by rw [hprep]
  have hc1u : c1.unmarshaler = none := by
    rw [← hp1, prepareRequest_unmarshaler, hu]
  have hc1m : c1.marshaler = some StringMarshalerFunc := by
    rw [← hp1]; exact hmarsh _ _ _ _ _
  have hfields := GetHttpClientB_fields defTr c1
  have hres' : runRespMutators (GetHttpClientB defTr c1).1.resMutators resp = (x, none, t2) := by
    rw [hfields.2.1, hres]
  have hcu : (GetHttpClientB defTr c1).1.unmarshaler = none := by
    rw [hfields.2.2.2, hc1u]
  have hget : GetM defTr c path hd qr umap σ = doStep defTr c1 r umap σ := by
    simp only [GetM, hprep]
  have hclient : (doStep defTr c1 r umap σ).client
      = { (GetHttpClientB defTr c1).1 with unmarshaler := some StringUnmarshalerFunc } := by
    simp only [doStep, hreq, htr, hres', hcu]
    cases umap with
    | none => rfl
    | some mm =>
      by_cases hcl : x.contentLength > 0 ∨ x.contentLength = -1
      · simp only [if_pos hcl]
        rcases uLookup mm x.statusCode with _ | od
        · rfl
        · cases od with
          | none => rfl
          | some d =>
            cases x.readErr <;> rfl
      · simp only [if_neg hcl]
  refine ⟨hmarsh, ?_, ?_⟩
  · rw [hget, hclient]
    show (GetHttpClientB defTr c1).1.marshaler = some StringMarshalerFunc
    rw [hfields.2.2.1, hc1m]
  · rw [hget, hclient]

theorem copyMapValue_eq_self (m : HMap) (h : (mapKeys m).Nodup) : copyMapValue m = m :=
  copy_loop_eq_self m h

set_option maxHeartbeats 1000000 in
/-- C6: `Clone` shares the transport pointer but deep-copies everything else:
the clone's base URL, header map, query map and mutator backing arrays are
freshly allocated cells distinct from the original's, holding equal contents
at clone time, so writing through either client's references never changes
what the other reads. -/
theorem C6_clone_independence (h : Heap) (c : ClientH) (hv : clientValid h c = true) :
    ((CloneH h c).2.tclient = c.tclient) ∧
    ((CloneH h c).2.base ≠ c.base ∧
     readUrl (CloneH h c).1 (CloneH h c).2.base = cloneUrl (readUrl h c.base) ∧
     readUrl (CloneH h c).1 c.base = readUrl h c.base ∧
     (∀ u, readUrl (writeUrl (CloneH h c).1 (CloneH h c).2.base u) c.base
         = readUrl (CloneH h c).1 c.base) ∧
     (∀ u, readUrl (writeUrl (CloneH h c).1 c.base u) (CloneH h c).2.base
         = readUrl (CloneH h c).1 (CloneH h c).2.base)) ∧
    ((c.headers = none → (CloneH h c).2.headers = none) ∧
     (∀ rH rH', c.headers = some rH → (CloneH h c).2.headers = some rH' →
       rH' ≠ rH ∧
       readHMap (CloneH h c).1 rH' = readHMap h rH ∧
       readHMap (CloneH h c).1 rH = readHMap h rH ∧
       (∀ m, readHMap (writeHMap (CloneH h c).1 rH' m) rH = readHMap (CloneH h c).1 rH) ∧
       (∀ m, readHMap (writeHMap (CloneH h c).1 rH m) rH' = readHMap (CloneH h c).1 rH'))) ∧
    ((c.query = none → (CloneH h c).2.query = none) ∧
     (∀ rQ rQ', c.query = some rQ → (CloneH h c).2.query = some rQ' →
       rQ' ≠ rQ ∧
       readHMap (CloneH h c).1 rQ' = readHMap h rQ ∧
       readHMap (CloneH h c).1 rQ = readHMap h rQ ∧
       (∀ m, readHMap (writeHMap (CloneH h c).1 rQ' m) rQ = readHMap (CloneH h c).1 rQ) ∧
       (∀ m, readHMap (writeHMap (CloneH h c).1 rQ m) rQ' = readHMap (CloneH h c).1 rQ'))) ∧
    ((CloneH h c).2.reqMutators.arr ≠ c.reqMutators.arr ∧
     (CloneH h c).2.reqMutators.len = c.reqMutators.len ∧
     readArr (CloneH h c).1 (CloneH h c).2.reqMutators.arr
       = (readArr h c.reqMutators.arr).take c.reqMutators.len ∧
     readArr (CloneH h c).1 c.reqMutators.arr = readArr h c.reqMutators.arr ∧
     (∀ a, readArr (writeArr (CloneH h c).1 (CloneH h c).2.reqMutators.arr a) c.reqMutators.arr
         = readArr (CloneH h c).1 c.reqMutators.arr) ∧
     (∀ a, readArr (writeArr (CloneH h c).1 c.reqMutators.arr a) (CloneH h c).2.reqMutators.arr
         = readArr (CloneH h c).1 (CloneH h c).2.reqMutators.arr)) ∧
    ((CloneH h c).2.resMutators.arr ≠ c.resMutators.arr ∧
     (CloneH h c).2.resMutators.len = c.resMutators.len ∧
     readArr (CloneH h c).1 (CloneH h c).2.resMutators.arr
       = (readArr h c.resMutators.arr).take c.resMutators.len ∧
     readArr (CloneH h c).1 c.resMutators.arr = readArr h c.resMutators.arr ∧
     (∀ a, readArr (writeArr (CloneH h c).1 (CloneH h c).2.resMutators.arr a) c.resMutators.arr
         = readArr (CloneH h c).1 c.resMutators.arr) ∧
     (∀ a, readArr (writeArr (CloneH h c).1 c.resMutators.arr a) (CloneH h c).2.resMutators.arr
         = readArr (CloneH h c).1 (CloneH h c).2.resMutators.arr)) := by
  rcases hh : c.headers with _ | rH0 <;> rcases hq : c.query with _ | rQ0
  · simp only [clientValid, sliceValid, hh, hq, Bool.and_eq_true, decide_eq_true_eq] at hv
    obtain ⟨⟨⟨⟨hb, hra, hrl⟩, hsa, hsl⟩, -⟩, -⟩ := hv
    have hne_base : h.urls.length ≠ c.base := by omega
    have hne_base2 : c.base ≠ h.urls.length := by omega
    have hne_req : h.arrs.length ≠ c.reqMutators.arr := by omega
    have hne_req2 : c.reqMutators.arr ≠ h.arrs.length := by omega
    have hne_res : h.arrs.length + 1 ≠ c.resMutators.arr := by omega
    have hne_res2 : c.resMutators.arr ≠ h.arrs.length + 1 := by omega
    refine ⟨?_, ⟨?_, ?_, ?_, ?_, ?_⟩, ⟨?_, ?_⟩, ⟨?_, ?_⟩,
      ⟨?_, ?_, ?_, ?_, ?_, ?_⟩, ⟨?_, ?_, ?_, ?_, ?_, ?_⟩⟩
    · simp [CloneH, headerCopyH, queryCopyH, hh, hq]
    · simp [CloneH, headerCopyH, queryCopyH, hh, hq, allocUrl]
      omega
    · simp [CloneH, headerCopyH, queryCopyH, hh, hq, readUrl, allocUrl, allocArr, List.getD,
        List.getElem?_append, List.getElem_append, Nat.sub_self, hb]
    · simp [CloneH, headerCopyH, queryCopyH, hh, hq, readUrl, allocUrl, allocArr, List.getD,
        List.getElem?_append_left, hb]
    · intro u
      simp [CloneH, headerCopyH, queryCopyH, hh, hq, readUrl, writeUrl, allocUrl, allocArr,
        List.getD, List.getElem?_set_ne, List.getElem?_append, List.getElem_append,
        Nat.sub_self, hb, hne_base]
    · intro u
      simp [CloneH, headerCopyH, queryCopyH, hh, hq, readUrl, writeUrl, allocUrl, allocArr,
        List.getD, List.getElem?_set_ne, List.getElem?_append, List.getElem_append,
        Nat.sub_self, hb, hne_base2]
    · intro _
      simp [CloneH, headerCopyH, queryCopyH, hh, hq]
    · intro rH rH2 hcon _
      exact absurd hcon (by simp)
    · intro _
      simp [CloneH, headerCopyH, queryCopyH, hh, hq]
    · intro rQ rQ2 hcon _
      exact absurd hcon (by simp)
    · simp [CloneH, headerCopyH, queryCopyH, hh, hq, allocArr, allocUrl]
      omega
    · simp [CloneH, headerCopyH, queryCopyH, hh, hq]
    · simp [CloneH, headerCopyH, queryCopyH, hh, hq, readArr, allocUrl, allocArr, List.getD,
        List.getElem?_append, List.getElem_append, Nat.sub_self, hra, hsa]
    · simp [CloneH, headerCopyH, queryCopyH, hh, hq, readArr, allocUrl, allocArr, List.getD,
        List.getElem?_append_left, hra]
    · intro a
      simp [CloneH, headerCopyH, queryCopyH, hh, hq, readArr, writeArr, allocUrl, allocArr,
        List.getD, List.getElem?_set_ne, List.getElem?_append, List.getElem_append,
        Nat.sub_self, hra, hsa, hne_req]
    · intro a
      simp [CloneH, headerCopyH, queryCopyH, hh, hq, readArr, writeArr, allocUrl, allocArr,
        List.getD, List.getElem?_set_ne, List.getElem?_append, List.getElem_append,
        Nat.sub_self, hra, hsa, hne_req2]
    · simp [CloneH, headerCopyH, queryCopyH, hh, hq, allocArr, allocUrl]
      omega
    · simp [CloneH, headerCopyH, queryCopyH, hh, hq]
    · simp [CloneH, headerCopyH, queryCopyH, hh, hq, readArr, allocUrl, allocArr, List.getD,
        List.getElem?_append, List.getElem_append, Nat.sub_self, hra, hsa]
    · simp [CloneH, headerCopyH, queryCopyH, hh, hq, readArr, allocUrl, allocArr, List.getD,
        List.getElem?_append, List.getElem_append, Nat.sub_self, hra, hsa]
    · intro a
      simp [CloneH, headerCopyH, queryCopyH, hh, hq, readArr, writeArr, allocUrl, allocArr,
        List.getD, List.getElem?_set_ne, List.getElem?_append, List.getElem_append,
        Nat.sub_self, hra, hsa, hne_res]
    · intro a
      simp [CloneH, headerCopyH, queryCopyH, hh, hq, readArr, writeArr, allocUrl, allocArr,
        List.getD, List.getElem?_set_ne, List.getElem?_append, List.getElem_append,
        Nat.sub_self, hra, hsa, hne_res2]
  · simp only [clientValid, sliceValid, hh, hq, Bool.and_eq_true, decide_eq_true_eq] at hv
    obtain ⟨⟨⟨⟨hb, hra, hrl⟩, hsa, hsl⟩, -⟩, hql, hqn⟩ := hv
    have hne_base : h.urls.length ≠ c.base := by omega
    have hne_base2 : c.base ≠ h.urls.length := by omega
    have hne_req : h.arrs.length ≠ c.reqMutators.arr := by omega
    have hne_req2 : c.reqMutators.arr ≠ h.arrs.length := by omega
    have hne_res : h.arrs.length + 1 ≠ c.resMutators.arr := by omega
    have hne_res2 : c.resMutators.arr ≠ h.arrs.length + 1 := by omega
    have hne_q : h.hmaps.length ≠ rQ0 := by omega
    have hne_q2 : rQ0 ≠ h.hmaps.length := by omega
    refine ⟨?_, ⟨?_, ?_, ?_, ?_, ?_⟩, ⟨?_, ?_⟩, ⟨?_, ?_⟩,
      ⟨?_, ?_, ?_, ?_, ?_, ?_⟩, ⟨?_, ?_, ?_, ?_, ?_, ?_⟩⟩
    · simp [CloneH, headerCopyH, queryCopyH, hh, hq]
    · simp [CloneH, headerCopyH, queryCopyH, hh, hq, allocUrl]
      omega
    · simp [CloneH, headerCopyH, queryCopyH, hh, hq, readUrl, allocUrl, allocArr, allocHMap, List.getD]
    · simp [CloneH, headerCopyH, queryCopyH, hh, hq, readUrl, allocUrl, allocArr, allocHMap, List.getD,
        List.getElem?_append_left, hb]
    · intro u
      simp [CloneH, headerCopyH, queryCopyH, hh, hq, readUrl, writeUrl, allocUrl, allocArr, allocHMap,
        List.getD, List.getElem?_set_ne, List.getElem?_append, List.getElem_append,
        Nat.sub_self, hb, hne_base]
    · intro u
      simp [CloneH, headerCopyH, queryCopyH, hh, hq, readUrl, writeUrl, allocUrl, allocArr, allocHMap,
        List.getD, List.getElem?_set_ne, List.getElem?_append, List.getElem_append,
        Nat.sub_self, hb, hne_base2]
    · intro _
      simp [CloneH, headerCopyH, queryCopyH, hh, hq]
    · intro rH rH2 hcon _
      exact absurd hcon (by simp)
    · intro hcon
      exact absurd hcon (by simp)
    · intro rX rX2 hx1 hx2
      have hx1' : rQ0 = rX := by injection hx1
      subst hx1'
      have hx2' : rX2 = h.hmaps.length := by
        simp [CloneH, headerCopyH, queryCopyH, hh, hq, allocUrl, allocArr, allocHMap] at hx2
        omega
      subst hx2'
      refine ⟨by omega, ?_, ?_, ?_, ?_⟩
      · have hcopy := copyMapValue_eq_self _ hqn
        simp [readHMap, List.getD, hql] at hcopy
        simp [CloneH, headerCopyH, queryCopyH, hh, hq, readHMap, allocUrl, allocArr, allocHMap,
          List.getD, List.getElem?_append, List.getElem_append, Nat.sub_self, hql, hcopy]
      · simp [CloneH, headerCopyH, queryCopyH, hh, hq, readHMap, allocUrl, allocArr, allocHMap,
          List.getD, List.getElem?_append_left, hql]
      · intro m
        simp [CloneH, headerCopyH, queryCopyH, hh, hq, readHMap, writeHMap, allocUrl, allocArr,
          allocHMap, List.getD, List.getElem?_set_ne, List.getElem?_append, List.getElem_append,
          Nat.sub_self, hql, hne_q]
      · intro m
        simp [CloneH, headerCopyH, queryCopyH, hh, hq, readHMap, writeHMap, allocUrl, allocArr,
          allocHMap, List.getD, List.getElem?_set_ne, List.getElem?_append, List.getElem_append,
          Nat.sub_self, hql, hne_q2]
    · simp [CloneH, headerCopyH, queryCopyH, hh, hq, allocArr, allocUrl, allocHMap]
      omega
    · simp [CloneH, headerCopyH, queryCopyH, hh, hq]
    · simp [CloneH, headerCopyH, queryCopyH, hh, hq, readArr, allocUrl, allocArr, allocHMap, List.getD,
        List.getElem?_append, List.getElem_append, Nat.sub_self, hra, hsa]
    · simp [CloneH, headerCopyH, queryCopyH, hh, hq, readArr, allocUrl, allocArr, allocHMap, List.getD,
        List.getElem?_append_left, hra]
    · intro a
      simp [CloneH, headerCopyH, queryCopyH, hh, hq, readArr, writeArr, allocUrl, allocArr, allocHMap,
        List.getD, List.getElem?_set_ne, List.getElem?_append, List.getElem_append,
        Nat.sub_self, hra, hsa, hne_req]
    · intro a
      simp [CloneH, headerCopyH, queryCopyH, hh, hq, readArr, writeArr, allocUrl, allocArr, allocHMap,
        List.getD, List.getElem?_set_ne, List.getElem?_append, List.getElem_append,
        Nat.sub_self, hra, hsa, hne_req2]
    · simp [CloneH, headerCopyH, queryCopyH, hh, hq, allocArr, allocUrl, allocHMap]
      omega
    · simp [CloneH, headerCopyH, queryCopyH, hh, hq]
    · simp [CloneH, headerCopyH, queryCopyH, hh, hq, readArr, allocUrl, allocArr, allocHMap, List.getD,
        List.getElem?_append, List.getElem_append, Nat.sub_self, hra, hsa]
    · simp [CloneH, headerCopyH, queryCopyH, hh, hq, readArr, allocUrl, allocArr, allocHMap, List.getD,
        List.getElem?_append, List.getElem_append, Nat.sub_self, hra, hsa]
    · intro a
      simp [CloneH, headerCopyH, queryCopyH, hh, hq, readArr, writeArr, allocUrl, allocArr, allocHMap,
        List.getD, List.getElem?_set_ne, List.getElem?_append, List.getElem_append,
        Nat.sub_self, hra, hsa, hne_res]
    · intro a
      simp [CloneH, headerCopyH, queryCopyH, hh, hq, readArr, writeArr, allocUrl, allocArr, allocHMap,
        List.getD, List.getElem?_set_ne, List.getElem?_append, List.getElem_append,
        Nat.sub_self, hra, hsa, hne_res2]
  · simp only [clientValid, sliceValid, hh, hq, Bool.and_eq_true, decide_eq_true_eq] at hv
    obtain ⟨⟨⟨⟨hb, hra, hrl⟩, hsa, hsl⟩, hhl, hhn⟩, -⟩ := hv
    have hne_base : h.urls.length ≠ c.base := by omega
    have hne_base2 : c.base ≠ h.urls.length := by omega
    have hne_req : h.arrs.length ≠ c.reqMutators.arr := by omega
    have hne_req2 : c.reqMutators.arr ≠ h.arrs.length := by omega
    have hne_res : h.arrs.length + 1 ≠ c.resMutators.arr := by omega
    have hne_res2 : c.resMutators.arr ≠ h.arrs.length + 1 := by omega
    have hne_h : h.hmaps.length ≠ rH0 := by omega
    have hne_h2 : rH0 ≠ h.hmaps.length := by omega
    refine ⟨?_, ⟨?_, ?_, ?_, ?_, ?_⟩, ⟨?_, ?_⟩, ⟨?_, ?_⟩,
      ⟨?_, ?_, ?_, ?_, ?_, ?_⟩, ⟨?_, ?_, ?_, ?_, ?_, ?_⟩⟩
    · simp [CloneH, headerCopyH, queryCopyH, hh, hq]
    · simp [CloneH, headerCopyH, queryCopyH, hh, hq, allocUrl]
      omega
    · simp [CloneH, headerCopyH, queryCopyH, hh, hq, readUrl, allocUrl, allocArr, allocHMap, List.getD]
    · simp [CloneH, headerCopyH, queryCopyH, hh, hq, readUrl, allocUrl, allocArr, allocHMap, List.getD,
        List.getElem?_append_left, hb]
    · intro u
      simp [CloneH, headerCopyH, queryCopyH, hh, hq, readUrl, writeUrl, allocUrl, allocArr, allocHMap,
        List.getD, List.getElem?_set_ne, List.getElem?_append, List.getElem_append,
        Nat.sub_self, hb, hne_base]
    · intro u
      simp [CloneH, headerCopyH, queryCopyH, hh, hq, readUrl, writeUrl, allocUrl, allocArr, allocHMap,
        List.getD, List.getElem?_set_ne, List.getElem?_append, List.getElem_append,
        Nat.sub_self, hb, hne_base2]
    · intro hcon
      exact absurd hcon (by simp)
    · intro rX rX2 hx1 hx2
      have hx1' : rH0 = rX := by injection hx1
      subst hx1'
      have hx2' : rX2 = h.hmaps.length := by
        simp [CloneH, headerCopyH, queryCopyH, hh, hq, allocUrl, allocArr, allocHMap] at hx2
        omega
      subst hx2'
      refine ⟨by omega, ?_, ?_, ?_, ?_⟩
      · have hcopy := copyMapValue_eq_self _ hhn
        simp [readHMap, List.getD, hhl] at hcopy
        simp [CloneH, headerCopyH, queryCopyH, hh, hq, readHMap, allocUrl, allocArr, allocHMap,
          List.getD, List.getElem?_append, List.getElem_append, Nat.sub_self, hhl, hcopy]
      · simp [CloneH, headerCopyH, queryCopyH, hh, hq, readHMap, allocUrl, allocArr, allocHMap,
          List.getD, List.getElem?_append_left, hhl]
      · intro m
        simp [CloneH, headerCopyH, queryCopyH, hh, hq, readHMap, writeHMap, allocUrl, allocArr,
          allocHMap, List.getD, List.getElem?_set_ne, List.getElem?_append, List.getElem_append,
          Nat.sub_self, hhl, hne_h]
      · intro m
        simp [CloneH, headerCopyH, queryCopyH, hh, hq, readHMap, writeHMap, allocUrl, allocArr,
          allocHMap, List.getD, List.getElem?_set_ne, List.getElem?_append, List.getElem_append,
          Nat.sub_self, hhl, hne_h2]
    · intro _
      simp [CloneH, headerCopyH, queryCopyH, hh, hq]
    · intro rQ rQ2 hcon _
      exact absurd hcon (by simp)
    · simp [CloneH, headerCopyH, queryCopyH, hh, hq, allocArr, allocUrl, allocHMap]
      omega
    · simp [CloneH, headerCopyH, queryCopyH, hh, hq]
    · simp [CloneH, headerCopyH, queryCopyH, hh, hq, readArr, allocUrl, allocArr, allocHMap, List.getD,
        List.getElem?_append, List.getElem_append, Nat.sub_self, hra, hsa]
    · simp [CloneH, headerCopyH, queryCopyH, hh, hq, readArr, allocUrl, allocArr, allocHMap, List.getD,
        List.getElem?_append_left, hra]
    · intro a
      simp [CloneH, headerCopyH, queryCopyH, hh, hq, readArr, writeArr, allocUrl, allocArr, allocHMap,
        List.getD, List.getElem?_set_ne, List.getElem?_append, List.getElem_append,
        Nat.sub_self, hra, hsa, hne_req]
    · intro a
      simp [CloneH, headerCopyH, queryCopyH, hh, hq, readArr, writeArr, allocUrl, allocArr, allocHMap,
        List.getD, List.getElem?_set_ne, List.getElem?_append, List.getElem_append,
        Nat.sub_self, hra, hsa, hne_req2]
    · simp [CloneH, headerCopyH, queryCopyH, hh, hq, allocArr, allocUrl, allocHMap]
      omega
    · simp [CloneH, headerCopyH, queryCopyH, hh, hq]
    · simp [CloneH, headerCopyH, queryCopyH, hh, hq, readArr, allocUrl, allocArr, allocHMap, List.getD,
        List.getElem?_append, List.getElem_append, Nat.sub_self, hra, hsa]
    · simp [CloneH, headerCopyH, queryCopyH, hh, hq, readArr, allocUrl, allocArr, allocHMap, List.getD,
        List.getElem?_append, List.getElem_append, Nat.sub_self, hra, hsa]
    · intro a
      simp [CloneH, headerCopyH, queryCopyH, hh, hq, readArr, writeArr, allocUrl, allocArr, allocHMap,
        List.getD, List.getElem?_set_ne, List.getElem?_append, List.getElem_append,
        Nat.sub_self, hra, hsa, hne_res]
    · intro a
      simp [CloneH, headerCopyH, queryCopyH, hh, hq, readArr, writeArr, allocUrl, allocArr, allocHMap,
        List.getD, List.getElem?_set_ne, List.getElem?_append, List.getElem_append,
        Nat.sub_self, hra, hsa, hne_res2]
  · simp only [clientValid, sliceValid, hh, hq, Bool.and_eq_true, decide_eq_true_eq] at hv
    obtain ⟨⟨⟨⟨hb, hra, hrl⟩, hsa, hsl⟩, hhl, hhn⟩, hql, hqn⟩ := hv
    have hne_base : h.urls.length ≠ c.base := by omega
    have hne_base2 : c.base ≠ h.urls.length := by omega
    have hne_req : h.arrs.length ≠ c.reqMutators.arr := by omega
    have hne_req2 : c.reqMutators.arr ≠ h.arrs.length := by omega
    have hne_res : h.arrs.length + 1 ≠ c.resMutators.arr := by omega
    have hne_res2 : c.resMutators.arr ≠ h.arrs.length + 1 := by omega
    have hne_h : h.hmaps.length ≠ rH0 := by omega
    have hne_h2 : rH0 ≠ h.hmaps.length := by omega
    have hne_q : h.hmaps.length + 1 ≠ rQ0 := by omega
    have hne_q2 : rQ0 ≠ h.hmaps.length + 1 := by omega
    refine ⟨?_, ⟨?_, ?_, ?_, ?_, ?_⟩, ⟨?_, ?_⟩, ⟨?_, ?_⟩,
      ⟨?_, ?_, ?_, ?_, ?_, ?_⟩, ⟨?_, ?_, ?_, ?_, ?_, ?_⟩⟩
    · simp [CloneH, headerCopyH, queryCopyH, hh, hq]
    · simp [CloneH, headerCopyH, queryCopyH, hh, hq, allocUrl]
      omega
    · simp [CloneH, headerCopyH, queryCopyH, hh, hq, readUrl, allocUrl, allocArr, allocHMap, List.getD]
    · simp [CloneH, headerCopyH, queryCopyH, hh, hq, readUrl, allocUrl, allocArr, allocHMap, List.getD,
        List.getElem?_append_left, hb]
    · intro u
      simp [CloneH, headerCopyH, queryCopyH, hh, hq, readUrl, writeUrl, allocUrl, allocArr, allocHMap,
        List.getD, List.getElem?_set_ne, List.getElem?_append, List.getElem_append,
        Nat.sub_self, hb, hne_base]
    · intro u
      simp [CloneH, headerCopyH, queryCopyH, hh, hq, readUrl, writeUrl, allocUrl, allocArr, allocHMap,
        List.getD, List.getElem?_set_ne, List.getElem?_append, List.getElem_append,
        Nat.sub_self, hb, hne_base2]
    · intro hcon
      exact absurd hcon (by simp)
    · intro rX rX2 hx1 hx2
      have hx1' : rH0 = rX := by injection hx1
      subst hx1'
      have hx2' : rX2 = h.hmaps.length := by
        simp [CloneH, headerCopyH, queryCopyH, hh, hq, allocUrl, allocArr, allocHMap] at hx2
        omega
      subst hx2'
      refine ⟨by omega, ?_, ?_, ?_, ?_⟩
      · have hcopy := copyMapValue_eq_self _ hhn
        simp [readHMap, List.getD, hhl] at hcopy
        simp [CloneH, headerCopyH, queryCopyH, hh, hq, readHMap, allocUrl, allocArr, allocHMap,
          List.getD, List.getElem?_append, List.getElem_append, Nat.sub_self, hhl, hcopy]
      · simp [CloneH, headerCopyH, queryCopyH, hh, hq, readHMap, allocUrl, allocArr, allocHMap,
          List.getD, List.getElem?_append_left, hhl]
      · intro m
        simp [CloneH, headerCopyH, queryCopyH, hh, hq, readHMap, writeHMap, allocUrl, allocArr,
          allocHMap, List.getD, List.getElem?_set_ne, List.getElem?_append, List.getElem_append,
          Nat.sub_self, hhl, hql, hne_h]
      · intro m
        simp [CloneH, headerCopyH, queryCopyH, hh, hq, readHMap, writeHMap, allocUrl, allocArr,
          allocHMap, List.getD, List.getElem?_set_ne, List.getElem?_append, List.getElem_append,
          Nat.sub_self, hhl, hql, hne_h2]
    · intro hcon
      exact absurd hcon (by simp)
    · intro rX rX2 hx1 hx2
      have hx1' : rQ0 = rX := by injection hx1
      subst hx1'
      have hx2' : rX2 = h.hmaps.length + 1 := by
        simp [CloneH, headerCopyH, queryCopyH, hh, hq, allocUrl, allocArr, allocHMap] at hx2
        omega
      subst hx2'
      refine ⟨by omega, ?_, ?_, ?_, ?_⟩
      · have hcopy := copyMapValue_eq_self _ hqn
        simp [readHMap, List.getD, hql] at hcopy
        simp [CloneH, headerCopyH, queryCopyH, hh, hq, readHMap, allocUrl, allocArr, allocHMap,
          List.getD, List.getElem?_append, List.getElem_append, Nat.sub_self, hhl, hql, hcopy]
      · simp [CloneH, headerCopyH, queryCopyH, hh, hq, readHMap, allocUrl, allocArr, allocHMap,
          List.getD, List.getElem?_append_left, hql]
      · intro m
        simp [CloneH, headerCopyH, queryCopyH, hh, hq, readHMap, writeHMap, allocUrl, allocArr,
          allocHMap, List.getD, List.getElem?_set_ne, List.getElem?_append, List.getElem_append,
          Nat.sub_self, hhl, hql, hne_q]
      · intro m
        simp [CloneH, headerCopyH, queryCopyH, hh, hq, readHMap, writeHMap, allocUrl, allocArr,
          allocHMap, List.getD, List.getElem?_set_ne, List.getElem?_append, List.getElem_append,
          Nat.sub_self, hhl, hql, hne_q2]
    · simp [CloneH, headerCopyH, queryCopyH, hh, hq, allocArr, allocUrl, allocHMap]
      omega
    · simp [CloneH, headerCopyH, queryCopyH, hh, hq]
    · simp [CloneH, headerCopyH, queryCopyH, hh, hq, readArr, allocUrl, allocArr, allocHMap, List.getD,
        List.getElem?_append, List.getElem_append, Nat.sub_self, hra, hsa]
    · simp [CloneH, headerCopyH, queryCopyH, hh, hq, readArr, allocUrl, allocArr, allocHMap, List.getD,
        List.getElem?_append_left, hra]
    · intro a
      simp [CloneH, headerCopyH, queryCopyH, hh, hq, readArr, writeArr, allocUrl, allocArr, allocHMap,
        List.getD, List.getElem?_set_ne, List.getElem?_append, List.getElem_append,
        Nat.sub_self, hra, hsa, hne_req]
    · intro a
      simp [CloneH, headerCopyH, queryCopyH, hh, hq, readArr, writeArr, allocUrl, allocArr, allocHMap,
        List.getD, List.getElem?_set_ne, List.getElem?_append, List.getElem_append,
        Nat.sub_self, hra, hsa, hne_req2]
    · simp [CloneH, headerCopyH, queryCopyH, hh, hq, allocArr, allocUrl, allocHMap]
      omega
    · simp [CloneH, headerCopyH, queryCopyH, hh, hq]
    · simp [CloneH, headerCopyH, queryCopyH, hh, hq, readArr, allocUrl, allocArr, allocHMap, List.getD,
        List.getElem?_append, List.getElem_append, Nat.sub_self, hra, hsa]
    · simp [CloneH, headerCopyH, queryCopyH, hh, hq, readArr, allocUrl, allocArr, allocHMap, List.getD,
        List.getElem?_append, List.getElem_append, Nat.sub_self, hra, hsa]
    · intro a
      simp [CloneH, headerCopyH, queryCopyH, hh, hq, readArr, writeArr, allocUrl, allocArr, allocHMap,
        List.getD, List.getElem?_set_ne, List.getElem?_append, List.getElem_append,
        Nat.sub_self, hra, hsa, hne_res]
    · intro a
      simp [CloneH, headerCopyH, queryCopyH, hh, hq, readArr, writeArr, allocUrl, allocArr, allocHMap,
        List.getD, List.getElem?_set_ne, List.getElem?_append, List.getElem_append,
        Nat.sub_self, hra, hsa, hne_res2]

/-! ## Concrete fixtures for the dispatch witnesses -/

def url0 : Url := ⟨"http", "", none, "example.com", "/", "", ""⟩

def req0 : Req :=
  { method := "GET", url := url0, queryVals := [], headers := [],
    contentLength := 0, body := none }

def resp200 : Resp :=
  { statusCode := 200, contentLength := 2, bodyChars := "hi".toList,
    readErr := none, bodyClosed := false }

/-- A transport that always answers with `resp200`. -/
def trOk : Transport := fun _ => Except.ok resp200

def clientNoMut : ClientB :=
  { base := url0, reqMutators := [], resMutators := [], headers := [], query := [],
    httpClient := none, marshaler := none, unmarshaler := none }

/-- A request mutator that always fails. -/
def rmFail : RM := fun r => (r, some "boom")

/-- A response mutator that always fails. -/
def respmFail : RespM := fun x => (x, some "respboom")

def clientReqFail : ClientB := { clientNoMut with reqMutators := [rmFail] }

def clientRespFail : ClientB := { clientNoMut with resMutators := [respmFail] }

/-- The unmarshal map `{200 ↦ &cell 0}` used by the decode witness. -/
def umap200 : UMap := [(200, some (Dest.strRef 0))]

/-- C1 witness: the decode policy at a concrete dispatch — status 200 with a
two-byte body against a map binding 200 to a destination. -/
theorem C1_decode_policy_witness :
    (runReqMutators clientNoMut.reqMutators req0 = (req0, none, []) ∧
     (GetHttpClientB trOk clientNoMut).2 req0 = Except.ok resp200 ∧
     runRespMutators clientNoMut.resMutators resp200 = (resp200, none, [])) ∧
    (((Ev.decodeEnterEv ∈ (doStep trOk clientNoMut req0 (some umap200) [""]).trace) ↔
      ((resp200.contentLength > 0 ∨ resp200.contentLength = -1) ∧
        ∃ d, uLookup umap200 resp200.statusCode = some (some d))) ∧
     (¬ ((resp200.contentLength > 0 ∨ resp200.contentLength = -1) ∧
        ∃ d, uLookup umap200 resp200.statusCode = some (some d)) →
      (doStep trOk clientNoMut req0 (some umap200) [""]).dstore = [""] ∧
      (doStep trOk clientNoMut req0 (some umap200) [""]).err = none) ∧
     (∀ d, (resp200.contentLength > 0 ∨ resp200.contentLength = -1) →
      uLookup umap200 resp200.statusCode = some (some d) → resp200.readErr = none →
      (doStep trOk clientNoMut req0 (some umap200) [""]).dstore
        = ((clientNoMut.unmarshaler.getD StringUnmarshalerFunc) resp200.bodyChars d [""]).1)) :=
  ⟨⟨rfl, rfl, rfl⟩,
   C1_decode_policy trOk clientNoMut req0 umap200 [""] req0 [] resp200 resp200 []
     rfl rfl rfl⟩

/-- C2 witness: a failing request mutator at a concrete dispatch. -/
theorem C2_req_mutator_failure_witness :
    (clientReqFail.reqMutators = [] ++ rmFail :: [] ∧
     runReqMutators [] req0 = (req0, none, []) ∧
     (rmFail req0).2 = some "boom") ∧
    ((doStep trOk clientReqFail req0 none []).resp = none ∧
     (doStep trOk clientReqFail req0 none []).err = some "boom" ∧
     (doStep trOk clientReqFail req0 none []).client = clientReqFail ∧
     Ev.transportEv ∉ (doStep trOk clientReqFail req0 none []).trace ∧
     List.count Ev.reqMutEv (doStep trOk clientReqFail req0 none []).trace
       = ([] : List RM).length + 1) :=
  ⟨⟨rfl, rfl, rfl⟩,
   C2_req_mutator_failure trOk clientReqFail req0 none [] [] [] rmFail req0 [] "boom"
     rfl rfl rfl⟩

/-- C3 witness: a failing response mutator at a concrete dispatch. -/
theorem C3_resp_mutator_failure_witness :
    (runReqMutators clientRespFail.reqMutators req0 = (req0, none, []) ∧
     (GetHttpClientB trOk clientRespFail).2 req0 = Except.ok resp200 ∧
     clientRespFail.resMutators = [] ++ respmFail :: [] ∧
     runRespMutators [] resp200 = (resp200, none, []) ∧
     (respmFail resp200).2 = some "respboom") ∧
    ((doStep trOk clientRespFail req0 none []).resp = some (closeBody (respmFail resp200).1) ∧
     (doStep trOk clientRespFail req0 none []).err = some "respboom" ∧
     Ev.decodeEnterEv ∉ (doStep trOk clientRespFail req0 none []).trace ∧
     Ev.unmarshalEv ∉ (doStep trOk clientRespFail req0 none []).trace ∧
     (doStep trOk clientRespFail req0 none []).dstore = [] ∧
     List.count Ev.respMutEv (doStep trOk clientRespFail req0 none []).trace
       = ([] : List RespM).length + 1) :=
  ⟨⟨rfl, rfl, rfl, rfl, rfl⟩,
   C3_resp_mutator_failure trOk clientRespFail req0 none [] req0 [] resp200 resp200 []
     [] [] respmFail "respboom" rfl rfl rfl rfl rfl⟩

/-- The client produced by `prepareRequest` in the C9 witness. -/
def client1 : ClientB := { clientNoMut with marshaler := some StringMarshalerFunc }

/-- The request produced by `prepareRequest` in the C9 witness. -/
def req1 : Req :=
  { method := "GET", url := { url0 with path := "/p" }, queryVals := [], headers := [],
    contentLength := 0, body := none }

/-- C9 witness: an unconfigured client, after a `Get` that reaches the decode
stage, holds the default text marshaler and unmarshaler. -/
theorem C9_dispatch_installs_defaults_witness :
    (clientNoMut.marshaler = none ∧
     clientNoMut.unmarshaler = none ∧
     prepareRequest clientNoMut "GET" "p" [] [] none = (client1, Except.ok req1) ∧
     runReqMutators client1.reqMutators req1 = (req1, none, []) ∧
     (GetHttpClientB trOk client1).2 req1 = Except.ok resp200 ∧
     runRespMutators client1.resMutators resp200 = (resp200, none, [])) ∧
    ((∀ method p hh qq body, ((prepareRequest clientNoMut method p hh qq body).1).marshaler
        = some StringMarshalerFunc) ∧
     (GetM trOk clientNoMut "p" [] [] none []).client.marshaler = some StringMarshalerFunc ∧
     (GetM trOk clientNoMut "p" [] [] none []).client.unmarshaler = some StringUnmarshalerFunc) :=
  ⟨⟨rfl, rfl, rfl, rfl, rfl, rfl⟩,
   C9_dispatch_installs_defaults trOk clientNoMut "p" [] [] none [] client1 req1 req1 []
     resp200 resp200 [] rfl rfl rfl rfl rfl rfl⟩

/-- C10 witness: the returned response of a concrete successful dispatch has
a closed body. -/
theorem C10_body_always_closed_witness :
    (runReqMutators clientNoMut.reqMutators req0 = (req0, none, []) ∧
     (GetHttpClientB trOk clientNoMut).2 req0 = Except.ok resp200) ∧
    (∃ resp', (doStep trOk clientNoMut req0 none []).resp = some resp' ∧
      resp'.bodyClosed = true) :=
  ⟨⟨rfl, rfl⟩,
   C10_body_always_closed trOk clientNoMut req0 none [] req0 [] resp200 rfl rfl⟩

/-- A one-object-per-kind heap for the clone witness. -/
def heap0 : Heap := ⟨[url0], [[("A", ["1"])]], [[7]]⟩

/-- A heap-level client whose references all point into `heap0`. -/
def clientH0 : ClientH :=
  { base := 0, reqMutators := ⟨0, 1⟩, resMutators := ⟨0, 1⟩,
    headers := some 0, query := some 0, tclient := some 5,
    marshaler := none, unmarshaler := none }

/-- C6 witness: clone independence at the concrete heap `heap0` and client
`clientH0`. -/
theorem C6_clone_independence_witness :
    clientValid heap0 clientH0 = true ∧
    (((CloneH heap0 clientH0).2.tclient = clientH0.tclient) ∧
     ((CloneH heap0 clientH0).2.base ≠ clientH0.base ∧
      readUrl (CloneH heap0 clientH0).1 (CloneH heap0 clientH0).2.base
        = cloneUrl (readUrl heap0 clientH0.base) ∧
      readUrl (CloneH heap0 clientH0).1 clientH0.base = readUrl heap0 clientH0.base ∧
      (∀ u, readUrl (writeUrl (CloneH heap0 clientH0).1 (CloneH heap0 clientH0).2.base u) clientH0.base
          = readUrl (CloneH heap0 clientH0).1 clientH0.base) ∧
      (∀ u, readUrl (writeUrl (CloneH heap0 clientH0).1 clientH0.base u) (CloneH heap0 clientH0).2.base
          = readUrl (CloneH heap0 clientH0).1 (CloneH heap0 clientH0).2.base)) ∧
     ((clientH0.headers = none → (CloneH heap0 clientH0).2.headers = none) ∧
      (∀ rH rH', clientH0.headers = some rH → (CloneH heap0 clientH0).2.headers = some rH' →
        rH' ≠ rH ∧
        readHMap (CloneH heap0 clientH0).1 rH' = readHMap heap0 rH ∧
        readHMap (CloneH heap0 clientH0).1 rH = readHMap heap0 rH ∧
        (∀ m, readHMap (writeHMap (CloneH heap0 clientH0).1 rH' m) rH
            = readHMap (CloneH heap0 clientH0).1 rH) ∧
        (∀ m, readHMap (writeHMap (CloneH heap0 clientH0).1 rH m) rH'
            = readHMap (CloneH heap0 clientH0).1 rH'))) ∧
     ((clientH0.query = none → (CloneH heap0 clientH0).2.query = none) ∧
      (∀ rQ rQ', clientH0.query = some rQ → (CloneH heap0 clientH0).2.query = some rQ' →
        rQ' ≠ rQ ∧
        readHMap (CloneH heap0 clientH0).1 rQ' = readHMap heap0 rQ ∧
        readHMap (CloneH heap0 clientH0).1 rQ = readHMap heap0 rQ ∧
        (∀ m, readHMap (writeHMap (CloneH heap0 clientH0).1 rQ' m) rQ
            = readHMap (CloneH heap0 clientH0).1 rQ) ∧
        (∀ m, readHMap (writeHMap (CloneH heap0 clientH0).1 rQ m) rQ'
            = readHMap (CloneH heap0 clientH0).1 rQ'))) ∧
     ((CloneH heap0 clientH0).2.reqMutators.arr ≠ clientH0.reqMutators.arr ∧
      (CloneH heap0 clientH0).2.reqMutators.len = clientH0.reqMutators.len ∧
      readArr (CloneH heap0 clientH0).1 (CloneH heap0 clientH0).2.reqMutators.arr
        = (readArr heap0 clientH0.reqMutators.arr).take clientH0.reqMutators.len ∧
      readArr (CloneH heap0 clientH0).1 clientH0.reqMutators.arr
        = readArr heap0 clientH0.reqMutators.arr ∧
      (∀ a, readArr (writeArr (CloneH heap0 clientH0).1 (CloneH heap0 clientH0).2.reqMutators.arr a)
            clientH0.reqMutators.arr
          = readArr (CloneH heap0 clientH0).1 clientH0.reqMutators.arr) ∧
      (∀ a, readArr (writeArr (CloneH heap0 clientH0).1 clientH0.reqMutators.arr a)
            (CloneH heap0 clientH0).2.reqMutators.arr
          = readArr (CloneH heap0 clientH0).1 (CloneH heap0 clientH0).2.reqMutators.arr)) ∧
     ((CloneH heap0 clientH0).2.resMutators.arr ≠ clientH0.resMutators.arr ∧
      (CloneH heap0 clientH0).2.resMutators.len = clientH0.resMutators.len ∧
      readArr (CloneH heap0 clientH0).1 (CloneH heap0 clientH0).2.resMutators.arr
        = (readArr heap0 clientH0.resMutators.arr).take clientH0.resMutators.len ∧
      readArr (CloneH heap0 clientH0).1 clientH0.resMutators.arr
        = readArr heap0 clientH0.resMutators.arr ∧
      (∀ a, readArr (writeArr (CloneH heap0 clientH0).1 (CloneH heap0 clientH0).2.resMutators.arr a)
            clientH0.resMutators.arr
          = readArr (CloneH heap0 clientH0).1 clientH0.resMutators.arr) ∧
      (∀ a, readArr (writeArr (CloneH heap0 clientH0).1 clientH0.resMutators.arr a)
            (CloneH heap0 clientH0).2.resMutators.arr
          = readArr (CloneH heap0 clientH0).1 (CloneH heap0 clientH0).2.resMutators.arr))) :=
  ⟨by decide, C6_clone_independence heap0 clientH0 (by decide)⟩

end Grest
